import Mathlib

/-
  Verification of the redis-rdb-tools streaming RDB parser (rdbtools/parser.py).

  The byte stream is modelled as a `List Nat` of byte values.  Every reader
  mirrors one function of the source and returns, like the source, both the
  decoded value and the exact raw bytes consumed, threading the remaining
  stream explicitly.  Fallible operations return `Except PErr`; callback
  invocations are modelled as an emitted `List Event`, so the event-producing
  functions return `List Event × Except PErr α` (events delivered before an
  exception are kept, matching the callback-before-raise order of the source).

  Dynamic-typing accidents of the source are modelled explicitly:
  `typeError` for tuple-where-int misuse, `attributeError` for access to an
  attribute that `init_ignore` never defined, `keyError` for a failed
  DATA_TYPE_MAPPING lookup.

  Two deliberate abstractions, noted where they occur: float parsing of
  sorted-set scores is modelled as tagging the raw bytes (no claim inspects
  numeric score values), and the regex key filter is modelled as an abstract
  predicate on the decoded key.
-/

inductive PErr where
  | truncated
  | typeError
  | attributeError
  | keyError
  | valueError
  | badMagic
  | badVersion
  | invalidObjectType
  | corruptLzf
  | corruptZiplist
  | oddZiplistEntries
  | corruptIntset
  | corruptZipmap
  | indexError
  | outOfFuel
deriving Repr, DecidableEq

/-- Decoded logical values: a byte string, an integer (integer-encoded strings,
intset entries, ziplist immediates), or the Python value None. -/
inductive RVal where
  | bytes (bs : List Nat)
  | int (i : Int)
  | none
deriving Repr, DecidableEq

def encString : String := "string"
def encLinkedlist : String := "linkedlist"
def encHashtable : String := "hashtable"
def encSkiplist : String := "skiplist"
def encIntset : String := "intset"
def encZiplist : String := "ziplist"
def encZipmap : String := "zipmap"
def tyString : String := "string"
def tyList : String := "list"
def tySet : String := "set"
def tySortedSet : String := "sortedset"
def tyHash : String := "hash"
def igRealValue : String := "real_value"
def igRealField : String := "real_field"

/-- The info dictionaries passed to callbacks.  A Python dict key that is
absent and a key that is present with value None are both modelled as
`Option.none`. -/
structure Info where
  encoding : Option String := Option.none
  sizeofValue : Option Nat := Option.none
  origDataType : Option (List Nat) := Option.none
  origExpiry : Option (List Nat) := Option.none
  origKey : Option (List Nat) := Option.none
  origVal : Option (List Nat) := Option.none
  origLength : Option (List Nat) := Option.none
  origRawString : Option (List Nat) := Option.none
  origField : Option (List Nat) := Option.none
  origValue : Option (List Nat) := Option.none
  origDblLength : Option (List Nat) := Option.none
  origScore : Option (List Nat) := Option.none
  origDbNumber : Option (List Nat) := Option.none
  origEndDb : Option (List Nat) := Option.none
deriving Repr, DecidableEq

/-- Callback invocations.  Element events whose source call site passes no
info argument, or passes the literal None, carry `Option.none`. -/
inductive Event where
  | startRdb
  | startDatabase (db : Nat) (info : Info)
  | set (key : RVal) (value : RVal) (expiry : Option Nat) (info : Info)
  | startList (key : RVal) (length : Nat) (expiry : Option Nat) (info : Info)
  | rpush (key : RVal) (value : RVal) (info : Option Info)
  | endList (key : RVal)
  | startSet (key : RVal) (card : Nat) (expiry : Option Nat) (info : Info)
  | sadd (key : RVal) (member : RVal) (info : Option Info)
  | endSet (key : RVal)
  | startSortedSet (key : RVal) (length : Nat) (expiry : Option Nat) (info : Info)
  | zadd (key : RVal) (score : RVal) (member : RVal) (info : Option Info)
  | endSortedSet (key : RVal)
  | startHash (key : RVal) (length : Nat) (expiry : Option Nat) (info : Info)
  | hset (key : RVal) (field : RVal) (value : RVal) (info : Option Info)
  | endHash (key : RVal)
  | endDatabase (db : Nat) (info : Option Info)
  | endRdb
deriving Repr, DecidableEq

abbrev PRes (α : Type) : Type := List Event × Except PErr α

def REDIS_RDB_6BITLEN : Nat := 0
def REDIS_RDB_14BITLEN : Nat := 1
def REDIS_RDB_32BITLEN : Nat := 2
def REDIS_RDB_ENCVAL : Nat := 3

def REDIS_RDB_OPCODE_EXPIRETIME_MS : Nat := 252
def REDIS_RDB_OPCODE_EXPIRETIME : Nat := 253
def REDIS_RDB_OPCODE_SELECTDB : Nat := 254
def REDIS_RDB_OPCODE_EOF : Nat := 255

def REDIS_RDB_TYPE_STRING : Nat := 0
def REDIS_RDB_TYPE_LIST : Nat := 1
def REDIS_RDB_TYPE_SET : Nat := 2
def REDIS_RDB_TYPE_ZSET : Nat := 3
def REDIS_RDB_TYPE_HASH : Nat := 4
def REDIS_RDB_TYPE_HASH_ZIPMAP : Nat := 9
def REDIS_RDB_TYPE_LIST_ZIPLIST : Nat := 10
def REDIS_RDB_TYPE_SET_INTSET : Nat := 11
def REDIS_RDB_TYPE_ZSET_ZIPLIST : Nat := 12
def REDIS_RDB_TYPE_HASH_ZIPLIST : Nat := 13

def REDIS_RDB_ENC_INT8 : Nat := 0
def REDIS_RDB_ENC_INT16 : Nat := 1
def REDIS_RDB_ENC_INT32 : Nat := 2
def REDIS_RDB_ENC_LZF : Nat := 3

def DATA_TYPE_MAPPING (t : Nat) : Option String :=
  if t = 0 then some tyString
  else if t = 1 then some tyList
  else if t = 2 then some tySet
  else if t = 3 then some tySortedSet
  else if t = 4 then some tyHash
  else if t = 9 then some tyHash
  else if t = 10 then some tyList
  else if t = 11 then some tySet
  else if t = 12 then some tySortedSet
  else if t = 13 then some tyHash
  else Option.none

/-- Little-endian value of a byte list (first byte least significant). -/
def uintLE (bs : List Nat) : Nat := bs.foldr (fun b acc => b + 256 * acc) 0

/-- Big-endian value of a byte list. -/
def uintBE (bs : List Nat) : Nat := bs.foldl (fun acc b => acc * 256 + b) 0

/-- Reinterpret a w-bit unsigned value as twos-complement signed. -/
def toSigned (w : Nat) (v : Nat) : Int :=
  if v < 2 ^ (w - 1) then (v : Int) else (v : Int) - 2 ^ w

/-- struct.unpack on an exact byte count: a short read raises struct.error. -/
def readBytesExact (n : Nat) (f : List Nat) : Except PErr (List Nat × List Nat) :=
  if f.length < n then .error .truncated else .ok (f.take n, f.drop n)

def read_unsigned_char (f : List Nat) : Except PErr (Nat × List Nat × List Nat) :=
  match f with
  | [] => .error .truncated
  | b :: rest => .ok (b, [b], rest)

def read_signed_char (f : List Nat) : Except PErr (Int × List Nat × List Nat) :=
  match f with
  | [] => .error .truncated
  | b :: rest => .ok (toSigned 8 b, [b], rest)

def read_unsigned_short (f : List Nat) : Except PErr (Nat × List Nat × List Nat) :=
  match readBytesExact 2 f with
  | .error e => .error e
  | .ok (d, rest) => .ok (uintLE d, d, rest)

def read_signed_short (f : List Nat) : Except PErr (Int × List Nat × List Nat) :=
  match readBytesExact 2 f with
  | .error e => .error e
  | .ok (d, rest) => .ok (toSigned 16 (uintLE d), d, rest)

def read_unsigned_int (f : List Nat) : Except PErr (Nat × List Nat × List Nat) :=
  match readBytesExact 4 f with
  | .error e => .error e
  | .ok (d, rest) => .ok (uintLE d, d, rest)

def read_signed_int (f : List Nat) : Except PErr (Int × List Nat × List Nat) :=
  match readBytesExact 4 f with
  | .error e => .error e
  | .ok (d, rest) => .ok (toSigned 32 (uintLE d), d, rest)

def read_big_endian_unsigned_int (f : List Nat) : Except PErr (Nat × List Nat × List Nat) :=
  match readBytesExact 4 f with
  | .error e => .error e
  | .ok (d, rest) => .ok (uintBE d, d, rest)

def read_unsigned_long (f : List Nat) : Except PErr (Nat × List Nat × List Nat) :=
  match readBytesExact 8 f with
  | .error e => .error e
  | .ok (d, rest) => .ok (uintLE d, d, rest)

def read_signed_long (f : List Nat) : Except PErr (Int × List Nat × List Nat) :=
  match readBytesExact 8 f with
  | .error e => .error e
  | .ok (d, rest) => .ok (toSigned 64 (uintLE d), d, rest)

/-- The source prepends the character 0 (byte 48) to the 3 data bytes, unpacks
a little-endian signed 32-bit integer and arithmetically shifts it right by 8
(a floor division by 256 on Python ints). -/
def read_24bit_signed_number (f : List Nat) : Except PErr (Int × List Nat × List Nat) :=
  match readBytesExact 3 f with
  | .error e => .error e
  | .ok (d, rest) => .ok (Int.fdiv (toSigned 32 (uintLE (48 :: d))) 256, d, rest)

/-- f.read(n) on a file object: returns at most n bytes, no error on a short read. -/
def fRead (n : Nat) (f : List Nat) : List Nat × List Nat := (f.take n, f.drop n)

/-- The byte swap computed by the ntohl helper of the source. -/
def ntohlSwap (val : Nat) : Nat :=
  ((val &&& 0x000000ff) <<< 24) ||| ((val &&& 0xff000000) >>> 24) |||
  ((val &&& 0x0000ff00) <<< 8) ||| ((val &&& 0x00ff0000) >>> 8)

/-- The ntohl helper of the source: load little-endian then byte-swap. -/
def ntohl (f : List Nat) : Except PErr (Nat × List Nat × List Nat) :=
  match read_unsigned_int f with
  | .error e => .error e
  | .ok (val, orig, rest) => .ok (ntohlSwap val, orig, rest)

/-- Integer floor division of microseconds by 1000000, as the source does
(Python 2 integer division). -/
def to_datetime (usecs_since_epoch : Nat) : Nat := usecs_since_epoch / 1000000

/-- Returns (length, is_encoded, raw bytes consumed, remaining stream). -/
def read_length_with_encoding (f : List Nat) :
    Except PErr (Nat × Bool × List Nat × List Nat) :=
  match read_unsigned_char f with
  | .error e => .error e
  | .ok (data, orig, f1) =>
    if (data &&& 0xC0) >>> 6 = REDIS_RDB_ENCVAL then
      .ok (data &&& 0x3F, true, orig, f1)
    else if (data &&& 0xC0) >>> 6 = REDIS_RDB_6BITLEN then
      .ok (data &&& 0x3F, false, orig, f1)
    else if (data &&& 0xC0) >>> 6 = REDIS_RDB_14BITLEN then
      match read_unsigned_char f1 with
      | .error e => .error e
      | .ok (data1, orig1, f2) =>
        .ok (((data &&& 0x3F) <<< 8) ||| data1, false, orig ++ orig1, f2)
    else
      match ntohl f1 with
      | .error e => .error e
      | .ok (length, origLen, f2) => .ok (length, false, orig ++ origLen, f2)

/-- Returns (length, joined raw bytes, remaining stream). -/
def read_length (f : List Nat) : Except PErr (Nat × List Nat × List Nat) :=
  match read_length_with_encoding f with
  | .error e => .error e
  | .ok (len, _, raw, rest) => .ok (len, raw, rest)

/-- Ignore flags.  `Option.none` models the corresponding parser attribute
never having been assigned by init_ignore, so that reading it raises
AttributeError. -/
structure IgnoreFlags where
  realValue : Option Bool
  realField : Option Bool
deriving Repr, DecidableEq

def getAttr (a : Option Bool) : Except PErr Bool :=
  match a with
  | Option.none => .error .attributeError
  | some b => .ok b

/-- init_ignore of the source.  An empty or missing ignore list returns early
and leaves both attributes undefined.  Note that the real_field branch of the
source assigns True in both arms of its conditional. -/
def init_ignore (ignore : Option (List String)) : IgnoreFlags :=
  match ignore with
  | Option.none => ⟨Option.none, Option.none⟩
  | some l =>
    if l = [] then ⟨Option.none, Option.none⟩
    else
      { realValue := some (decide (igRealValue ∈ l))
      , realField := some (if igRealField ∈ l then true else true) }

/-- Python index access on a bytearray: a negative index counts from the end,
an out-of-range index raises IndexError (None here). -/
def pyIndex (l : List Nat) (i : Int) : Option Nat :=
  let j : Int := if i < 0 then (l.length : Int) + i else i
  if j < 0 then Option.none else l[j.toNat]?

/-- The back-reference copy loop of lzf_decompress: appends one byte at a time
from position ref of the growing output, so self-overlapping runs replicate. -/
def lzfCopyRef (out : List Nat) (ref : Int) : Nat → Except PErr (List Nat)
  | 0 => .ok out
  | k+1 =>
    match pyIndex out ref with
    | Option.none => .error .indexError
    | some b => lzfCopyRef (out ++ [b]) (ref + 1) k

/-- One iteration of the control loop of lzf_decompress, parametrised by the
continuation for the rest of the loop. -/
def lzfIter (recur : List Nat → List Nat → Except PErr (List Nat)) (ctrl : Nat)
    (rest out : List Nat) : Except PErr (List Nat) :=
  if ctrl < 32 then
    if ctrl + 1 ≤ rest.length then
      recur (rest.drop (ctrl + 1)) (out ++ rest.take (ctrl + 1))
    else .error .indexError
  else
    match (if ctrl >>> 5 = 7 then
             match rest with
             | [] => .error .indexError
             | e :: r1 => .ok (ctrl >>> 5 + e, r1)
           else .ok (ctrl >>> 5, rest) : Except PErr (Nat × List Nat)) with
    | .error e => .error e
    | .ok (length, r1) =>
      match r1 with
      | [] => .error .indexError
      | b :: r2 =>
        match lzfCopyRef out
            ((out.length : Int) - ((((ctrl &&& 0x1f) <<< 8) : Nat) : Int) - (b : Int) - 1)
            (length + 2) with
        | .error e => .error e
        | .ok out2 => recur r2 out2

/-- The main control loop of lzf_decompress.  fuel only bounds the number of
iterations; every iteration consumes at least one input byte, so the callers
pass (input length + 1) and the fuel never runs out. -/
def lzfLoop : Nat → List Nat → List Nat → Except PErr (List Nat)
  | 0, _, _ => .error .outOfFuel
  | _ + 1, [], out => .ok out
  | fuel + 1, ctrl :: rest, out => lzfIter (lzfLoop fuel) ctrl rest out

def lzf_decompress (compressed : List Nat) (expected_length : Nat) :
    Except PErr (List Nat) :=
  match lzfLoop (compressed.length + 1) compressed [] with
  | .error e => .error e
  | .ok out => if out.length ≠ expected_length then .error .corruptLzf else .ok out

/-- read_string of the source: returns (value, joined raw bytes, rest).  The
value is None for an LZF string whose decompression is suppressed by the
real_value ignore flag, and also for an encoded discriminant outside 0..3
(the source falls through all branches with val = None). -/
def read_string (flags : IgnoreFlags) (f : List Nat) (is_key : Bool) :
    Except PErr (RVal × List Nat × List Nat) :=
  match read_length_with_encoding f with
  | .error e => .error e
  | .ok (length, is_encoded, bts, f1) =>
    if is_encoded then
      if length = REDIS_RDB_ENC_INT8 then
        match read_signed_char f1 with
        | .error e => .error e
        | .ok (v, ov, f2) => .ok (.int v, bts ++ ov, f2)
      else if length = REDIS_RDB_ENC_INT16 then
        match read_signed_short f1 with
        | .error e => .error e
        | .ok (v, ov, f2) => .ok (.int v, bts ++ ov, f2)
      else if length = REDIS_RDB_ENC_INT32 then
        match read_signed_int f1 with
        | .error e => .error e
        | .ok (v, ov, f2) => .ok (.int v, bts ++ ov, f2)
      else if length = REDIS_RDB_ENC_LZF then
        match read_length f1 with
        | .error e => .error e
        | .ok (clen, orig_clen, f2) =>
          match read_length f2 with
          | .error e => .error e
          | .ok (l, orig_l, f3) =>
            let orig_val := (fRead clen f3).1
            let f4 := (fRead clen f3).2
            if is_key then
              match lzf_decompress orig_val l with
              | .error e => .error e
              | .ok v => .ok (.bytes v, bts ++ orig_clen ++ orig_l ++ orig_val, f4)
            else
              match getAttr flags.realValue with
              | .error e => .error e
              | .ok irv =>
                if !irv then
                  match lzf_decompress orig_val l with
                  | .error e => .error e
                  | .ok v => .ok (.bytes v, bts ++ orig_clen ++ orig_l ++ orig_val, f4)
                else .ok (.none, bts ++ orig_clen ++ orig_l ++ orig_val, f4)
      else .ok (.none, bts, f1)
    else
      .ok (.bytes (fRead length f1).1, bts ++ (fRead length f1).1, (fRead length f1).2)

def skip_string (f : List Nat) : Except PErr (List Nat) :=
  match read_length_with_encoding f with
  | .error e => .error e
  | .ok (length, is_encoded, _, f1) =>
    if is_encoded then
      if length = REDIS_RDB_ENC_INT8 then .ok (f1.drop 1)
      else if length = REDIS_RDB_ENC_INT16 then .ok (f1.drop 2)
      else if length = REDIS_RDB_ENC_INT32 then .ok (f1.drop 4)
      else if length = REDIS_RDB_ENC_LZF then
        match read_length f1 with
        | .error e => .error e
        | .ok (_, _, f2) =>
          match read_length f2 with
          | .error e => .error e
          | .ok _ =>
            -- the source binds the whole (length, raw-bytes) pair returned by
            -- read_length as the byte count and then calls f.read on that
            -- pair, which raises TypeError
            .error .typeError
      else .ok f1
    else .ok (f1.drop length)

def skip_n_strings : Nat → List Nat → Except PErr (List Nat)
  | 0, f => .ok f
  | n + 1, f =>
    match skip_string f with
    | .error e => .error e
    | .ok f1 => skip_n_strings n f1

def skip_object (f : List Nat) (enc_type : Nat) : Except PErr (List Nat) :=
  if enc_type = REDIS_RDB_TYPE_STRING then skip_n_strings 1 f
  else if enc_type = REDIS_RDB_TYPE_LIST ∨ enc_type = REDIS_RDB_TYPE_SET ∨
          enc_type = REDIS_RDB_TYPE_ZSET ∨ enc_type = REDIS_RDB_TYPE_HASH then
    match read_length f with
    | .error e => .error e
    | .ok _ =>
      -- the source assigns skip_strings the (length, raw-bytes) pair returned
      -- by read_length (doubled by tuple repetition for ZSET and HASH, still a
      -- tuple); xrange(0, tuple) then raises TypeError
      .error .typeError
  else if enc_type = REDIS_RDB_TYPE_HASH_ZIPMAP ∨ enc_type = REDIS_RDB_TYPE_LIST_ZIPLIST ∨
          enc_type = REDIS_RDB_TYPE_SET_INTSET ∨ enc_type = REDIS_RDB_TYPE_ZSET_ZIPLIST ∨
          enc_type = REDIS_RDB_TYPE_HASH_ZIPLIST then
    skip_n_strings 1 f
  else .error .invalidObjectType

def skip_key_and_object (f : List Nat) (data_type : Nat) : Except PErr (List Nat) :=
  match skip_string f with
  | .error e => .error e
  | .ok f1 => skip_object f1 data_type

/-- The filter configuration after init_filter.  The compiled key regex is
modelled as an abstract predicate on the decoded key. -/
structure Filters where
  dbs : Option (List Nat)
  keysPred : RVal → Bool
  types : List String

def default_filters : Filters :=
  { dbs := Option.none
  , keysPred := fun _ => true
  , types := [tySet, tyHash, tySortedSet, tyString, tyList] }

/-- Python truthiness of the key argument: None, an empty byte string and the
integer 0 are falsy, so the regex is not consulted for them. -/
def keyTruthy : RVal → Bool
  | .none => false
  | .bytes bs => !bs.isEmpty
  | .int i => i != 0

def dbsTruthy : Option (List Nat) → Bool
  | Option.none => false
  | some l => !l.isEmpty

def matches_filter (flt : Filters) (db_number : Nat) (key : RVal)
    (data_type : Option Nat) : Except PErr Bool :=
  if dbsTruthy flt.dbs && !((flt.dbs.getD []).contains db_number) then .ok false
  else if keyTruthy key && !flt.keysPred key then .ok false
  else
    match data_type with
    | Option.none => .ok true
    | some t =>
      match DATA_TYPE_MAPPING t with
      | Option.none => .error .keyError
      | some name => .ok (decide (name ∈ flt.types))

/-- Optional sign followed by decimal digits, as Python int() accepts
(surrounding whitespace is not modelled; no input here contains any). -/
def parseAsciiDigits (l : List Nat) : Option Nat :=
  if l = [] then Option.none
  else if l.all (fun d => decide (48 ≤ d ∧ d ≤ 57)) then
    some (l.foldl (fun a d => a * 10 + (d - 48)) 0)
  else Option.none

def parseAsciiInt (l : List Nat) : Option Int :=
  match l with
  | 43 :: rest => (parseAsciiDigits rest).map Int.ofNat
  | 45 :: rest => (parseAsciiDigits rest).map (fun n => -(n : Int))
  | _ => (parseAsciiDigits l).map Int.ofNat

/-- int(value) wrapped in try/except ValueError, as read_zipmap does. -/
def pyIntOf (bs : List Nat) : RVal :=
  match parseAsciiInt bs with
  | some i => .int i
  | Option.none => .bytes bs

/-- Per-call parser state: the current key and expiry with their raw spans
and the raw type-opcode byte. -/
structure PState where
  key : RVal
  origKey : Option (List Nat)
  expiry : Option Nat
  origExpiry : Option (List Nat)
  origDataType : List Nat
deriving Repr, DecidableEq

def read_ziplist_entry (f : List Nat) : Except PErr (RVal × List Nat) :=
  match read_unsigned_char f with
  | .error e => .error e
  | .ok (prev_length, _, f1) =>
    let step1 : Except PErr (List Nat) :=
      if prev_length = 254 then
        match read_unsigned_int f1 with
        | .error e => .error e
        | .ok (_, _, g) => .ok g
      else .ok f1
    match step1 with
    | .error e => .error e
    | .ok f2 =>
      match read_unsigned_char f2 with
      | .error e => .error e
      | .ok (entry_header, _, f3) =>
        if entry_header >>> 6 = 0 then
          .ok (.bytes (fRead (entry_header &&& 0x3F) f3).1, (fRead (entry_header &&& 0x3F) f3).2)
        else if entry_header >>> 6 = 1 then
          match read_unsigned_char f3 with
          | .error e => .error e
          | .ok (b, _, f4) =>
            let length := ((entry_header &&& 0x3F) <<< 8) ||| b
            .ok (.bytes (fRead length f4).1, (fRead length f4).2)
        else if entry_header >>> 6 = 2 then
          match read_big_endian_unsigned_int f3 with
          | .error e => .error e
          | .ok (length, _, f4) =>
            .ok (.bytes (fRead length f4).1, (fRead length f4).2)
        else if entry_header >>> 4 = 12 then
          match read_signed_short f3 with
          | .error e => .error e
          | .ok (v, _, f4) => .ok (.int v, f4)
        else if entry_header >>> 4 = 13 then
          match read_signed_int f3 with
          | .error e => .error e
          | .ok (v, _, f4) => .ok (.int v, f4)
        else if entry_header >>> 4 = 14 then
          match read_signed_long f3 with
          | .error e => .error e
          | .ok (v, _, f4) => .ok (.int v, f4)
        else if entry_header = 240 then
          match read_24bit_signed_number f3 with
          | .error e => .error e
          | .ok (v, _, f4) => .ok (.int v, f4)
        else if entry_header = 254 then
          match read_signed_char f3 with
          | .error e => .error e
          | .ok (v, _, f4) => .ok (.int v, f4)
        else if 241 ≤ entry_header ∧ entry_header ≤ 253 then
          .ok (.int ((entry_header : Int) - 241), f3)
        else .error .corruptZiplist

def read_zipmap_next_length (f : List Nat) : Except PErr (Option Nat × List Nat) :=
  match read_unsigned_char f with
  | .error e => .error e
  | .ok (num, _, f1) =>
    if num < 254 then .ok (some num, f1)
    else if num = 254 then
      match read_unsigned_int f1 with
      | .error e => .error e
      | .ok (v, _, f2) => .ok (some v, f2)
    else .ok (Option.none, f1)

/-- Loop bodies of read_object.  Each loop mirrors the corresponding for-loop
of the source and emits one element event per iteration. -/
def read_list_items (flags : IgnoreFlags) (key : RVal) :
    Nat → List Nat → PRes (List Nat)
  | 0, f => ([], .ok f)
  | n + 1, f =>
    match read_string flags f false with
    | .error e => ([], .error e)
    | .ok (val, orig_val, f1) =>
      let r := read_list_items flags key n f1
      (Event.rpush key val (some { origVal := some orig_val }) :: r.1, r.2)

def read_set_items (flags : IgnoreFlags) (key : RVal) :
    Nat → List Nat → PRes (List Nat)
  | 0, f => ([], .ok f)
  | n + 1, f =>
    match read_string flags f false with
    | .error e => ([], .error e)
    | .ok (val, orig_val, f1) =>
      let r := read_set_items flags key n f1
      (Event.sadd key val (some { origVal := some orig_val }) :: r.1, r.2)

/-- Scores arrive as a byte string and the source applies float to them;
float parsing is modelled as keeping the tagged bytes. -/
def read_zset_items (flags : IgnoreFlags) (key : RVal) (orig_length : List Nat) :
    Nat → List Nat → PRes (List Nat)
  | 0, f => ([], .ok f)
  | n + 1, f =>
    match read_string flags f false with
    | .error e => ([], .error e)
    | .ok (val, orig_val, f1) =>
      match read_unsigned_char f1 with
      | .error e => ([], .error e)
      | .ok (dbl_length, orig_dbl_length, f2) =>
        let score := (fRead dbl_length f2).1
        let f3 := (fRead dbl_length f2).2
        let r := read_zset_items flags key orig_length n f3
        (Event.zadd key (.bytes score) val
            (some { origLength := some orig_length, origVal := some orig_val
                  , origDblLength := some orig_dbl_length, origScore := some score }) :: r.1,
         r.2)

def read_hash_items (flags : IgnoreFlags) (key : RVal) :
    Nat → List Nat → PRes (List Nat)
  | 0, f => ([], .ok f)
  | n + 1, f =>
    match read_string flags f false with
    | .error e => ([], .error e)
    | .ok (field, orig_field, f1) =>
      match read_string flags f1 false with
      | .error e => ([], .error e)
      | .ok (value, orig_value, f2) =>
        let r := read_hash_items flags key n f2
        (Event.hset key field value
            (some { origField := some orig_field, origValue := some orig_value }) :: r.1,
         r.2)

def intset_items (key : RVal) (encoding : Nat) :
    Nat → List Nat → PRes Unit
  | 0, _ => ([], .ok ())
  | n + 1, s =>
    let entry : Except PErr (Nat × List Nat) :=
      if encoding = 8 then
        match read_unsigned_long s with
        | .error e => .error e
        | .ok (v, _, s1) => .ok (v, s1)
      else if encoding = 4 then
        match read_unsigned_int s with
        | .error e => .error e
        | .ok (v, _, s1) => .ok (v, s1)
      else if encoding = 2 then
        match read_unsigned_short s with
        | .error e => .error e
        | .ok (v, _, s1) => .ok (v, s1)
      else .error .corruptIntset
    match entry with
    | .error e => ([], .error e)
    | .ok (v, s1) =>
      let r := intset_items key encoding n s1
      (Event.sadd key (.int v) Option.none :: r.1, r.2)

def ziplist_items (key : RVal) : Nat → List Nat → PRes (List Nat)
  | 0, s => ([], .ok s)
  | n + 1, s =>
    match read_ziplist_entry s with
    | .error e => ([], .error e)
    | .ok (val, s1) =>
      let r := ziplist_items key n s1
      (Event.rpush key val Option.none :: r.1, r.2)

/-- float(score) when the score entry is a byte string is modelled as the
identity on the tagged value, so the pair loop passes entries through. -/
def zset_ziplist_items (key : RVal) : Nat → List Nat → PRes (List Nat)
  | 0, s => ([], .ok s)
  | n + 1, s =>
    match read_ziplist_entry s with
    | .error e => ([], .error e)
    | .ok (member, s1) =>
      match read_ziplist_entry s1 with
      | .error e => ([], .error e)
      | .ok (score, s2) =>
        let r := zset_ziplist_items key n s2
        (Event.zadd key score member Option.none :: r.1, r.2)

/-- One field or value slot of the hash-ziplist loop: consult the ignore flag
(raising AttributeError when unset) and either read an entry or leave None. -/
def hz_side (flag : Option Bool) (s : List Nat) : Except PErr (RVal × List Nat) :=
  match getAttr flag with
  | .error e => .error e
  | .ok ign => if ign then .ok (.none, s) else read_ziplist_entry s

def hash_ziplist_items (flags : IgnoreFlags) (key : RVal) :
    Nat → List Nat → PRes (List Nat)
  | 0, s => ([], .ok s)
  | n + 1, s =>
    match hz_side flags.realField s with
    | .error e => ([], .error e)
    | .ok (field, s1) =>
      match hz_side flags.realValue s1 with
      | .error e => ([], .error e)
      | .ok (value, s2) =>
        let r := hash_ziplist_items flags key n s2
        (Event.hset key field value Option.none :: r.1, r.2)

/-- The while-loop of read_zipmap.  fuel only bounds the iteration count;
every iteration consumes at least one byte, so the caller passes
(buffer length + 1) and the fuel never runs out. -/
def zipmap_items (key : RVal) : Nat → List Nat → PRes (List Nat)
  | 0, _ => ([], .error .outOfFuel)
  | fuel + 1, s =>
    match read_zipmap_next_length s with
    | .error e => ([], .error e)
    | .ok (Option.none, s1) => ([], .ok s1)
    | .ok (some n1, s1) =>
      let zkey := (fRead n1 s1).1
      let s2 := (fRead n1 s1).2
      match read_zipmap_next_length s2 with
      | .error e => ([], .error e)
      | .ok (Option.none, _) => ([], .error .corruptZipmap)
      | .ok (some n2, s3) =>
        match read_unsigned_char s3 with
        | .error e => ([], .error e)
        | .ok (free, _, s4) =>
          let value := (fRead n2 s4).1
          let s5 := ((fRead n2 s4).2).drop free
          let r := zipmap_items key fuel s5
          (Event.hset key (.bytes zkey) (pyIntOf value) Option.none :: r.1, r.2)

def read_intset (flags : IgnoreFlags) (st : PState) (f : List Nat) : PRes (List Nat) :=
  match read_string flags f true with
  | .error e => ([], .error e)
  | .ok (raw_string, orig_raw_string, f1) =>
    match raw_string with
    | .bytes s =>
      match read_unsigned_int s with
      | .error e => ([], .error e)
      | .ok (encoding, _, s1) =>
        match read_unsigned_int s1 with
        | .error e => ([], .error e)
        | .ok (num_entries, _, s2) =>
          let info : Info :=
            { encoding := some encIntset, sizeofValue := some s.length
            , origDataType := some st.origDataType, origExpiry := st.origExpiry
            , origKey := st.origKey, origRawString := some orig_raw_string }
          let r := intset_items st.key encoding num_entries s2
          match r.2 with
          | .error e => (Event.startSet st.key num_entries st.expiry info :: r.1, .error e)
          | .ok _ =>
            ((Event.startSet st.key num_entries st.expiry info :: r.1) ++
               [Event.endSet st.key], .ok f1)
    | _ => ([], .error .typeError)

def read_ziplist (flags : IgnoreFlags) (st : PState) (f : List Nat) : PRes (List Nat) :=
  match read_string flags f true with
  | .error e => ([], .error e)
  | .ok (raw_string, orig_raw_string, f1) =>
    match raw_string with
    | .bytes s =>
      match read_unsigned_int s with
      | .error e => ([], .error e)
      | .ok (_, _, s1) =>
        match read_unsigned_int s1 with
        | .error e => ([], .error e)
        | .ok (_, _, s2) =>
          match read_unsigned_short s2 with
          | .error e => ([], .error e)
          | .ok (num_entries, _, s3) =>
            let info : Info :=
              { encoding := some encZiplist, sizeofValue := some s.length
              , origDataType := some st.origDataType, origExpiry := st.origExpiry
              , origKey := st.origKey, origRawString := some orig_raw_string }
            let r := ziplist_items st.key num_entries s3
            match r.2 with
            | .error e => (Event.startList st.key num_entries st.expiry info :: r.1, .error e)
            | .ok s4 =>
              match read_unsigned_char s4 with
              | .error e => (Event.startList st.key num_entries st.expiry info :: r.1, .error e)
              | .ok (zlist_end, _, _) =>
                if zlist_end ≠ 255 then
                  (Event.startList st.key num_entries st.expiry info :: r.1,
                   .error .corruptZiplist)
                else
                  ((Event.startList st.key num_entries st.expiry info :: r.1) ++
                     [Event.endList st.key], .ok f1)
    | _ => ([], .error .typeError)

def read_zset_from_ziplist (flags : IgnoreFlags) (st : PState) (f : List Nat) :
    PRes (List Nat) :=
  match read_string flags f true with
  | .error e => ([], .error e)
  | .ok (raw_string, orig_raw_string, _f1) =>
    match raw_string with
    | .bytes s =>
      match read_unsigned_int s with
      | .error e => ([], .error e)
      | .ok (_, _, s1) =>
        match read_unsigned_int s1 with
        | .error e => ([], .error e)
        | .ok (_, _, s2) =>
          match read_unsigned_short s2 with
          | .error e => ([], .error e)
          | .ok (num_entries, _, s3) =>
            if num_entries % 2 ≠ 0 then ([], .error .oddZiplistEntries)
            else
              let n := num_entries / 2
              let info : Info :=
                { encoding := some encZiplist, sizeofValue := some s.length
                , origDataType := some st.origDataType, origExpiry := st.origExpiry
                , origKey := st.origKey, origRawString := some orig_raw_string }
              let r := zset_ziplist_items st.key n s3
              match r.2 with
              | .error e =>
                (Event.startSortedSet st.key n st.expiry info :: r.1, .error e)
              | .ok s4 =>
                match read_unsigned_char s4 with
                | .error e =>
                  (Event.startSortedSet st.key n st.expiry info :: r.1, .error e)
                | .ok _ =>
                  -- the source omits the [0] projection on this read, so it
                  -- compares the whole (value, raw) pair with 255; that
                  -- comparison never holds and the corrupt-ziplist branch is
                  -- always taken, even for a valid 0xFF sentinel
                  (Event.startSortedSet st.key n st.expiry info :: r.1,
                   .error .corruptZiplist)
    | _ => ([], .error .typeError)

def read_hash_from_ziplist (flags : IgnoreFlags) (st : PState) (f : List Nat) :
    PRes (List Nat) :=
  match read_string flags f true with
  | .error e => ([], .error e)
  | .ok (raw_string, orig_raw_string, f1) =>
    match raw_string with
    | .bytes s =>
      match read_unsigned_int s with
      | .error e => ([], .error e)
      | .ok (_, _, s1) =>
        match read_unsigned_int s1 with
        | .error e => ([], .error e)
        | .ok (_, _, s2) =>
          match read_unsigned_short s2 with
          | .error e => ([], .error e)
          | .ok (num_entries, _, s3) =>
            if num_entries % 2 ≠ 0 then ([], .error .oddZiplistEntries)
            else
              let n := num_entries / 2
              let info : Info :=
                { encoding := some encZiplist, sizeofValue := some s.length
                , origDataType := some st.origDataType, origExpiry := st.origExpiry
                , origKey := st.origKey, origRawString := some orig_raw_string }
              let r := hash_ziplist_items flags st.key n s3
              match r.2 with
              | .error e => (Event.startHash st.key n st.expiry info :: r.1, .error e)
              | .ok s4 =>
                -- if not self._ignore_real_field or not self._ignore_real_value
                let chk : Except PErr Bool :=
                  match getAttr flags.realField with
                  | .error e => .error e
                  | .ok rfield =>
                    if !rfield then .ok true
                    else
                      match getAttr flags.realValue with
                      | .error e => .error e
                      | .ok rvalue => .ok (!rvalue)
                match chk with
                | .error e => (Event.startHash st.key n st.expiry info :: r.1, .error e)
                | .ok true =>
                  match read_unsigned_char s4 with
                  | .error e => (Event.startHash st.key n st.expiry info :: r.1, .error e)
                  | .ok (zlist_end, _, _) =>
                    if zlist_end ≠ 255 then
                      (Event.startHash st.key n st.expiry info :: r.1,
                       .error .corruptZiplist)
                    else
                      ((Event.startHash st.key n st.expiry info :: r.1) ++
                         [Event.endHash st.key], .ok f1)
                | .ok false =>
                  ((Event.startHash st.key n st.expiry info :: r.1) ++
                     [Event.endHash st.key], .ok f1)
    | _ => ([], .error .typeError)

/-- read_zipmap reads its raw string with the default is_key = False.  An
integer-encoded or suppressed raw string would reach bytearray with a
non-string argument; that corner is modelled as a TypeError and is not
exercised by any input considered here. -/
def read_zipmap (flags : IgnoreFlags) (st : PState) (f : List Nat) : PRes (List Nat) :=
  match read_string flags f false with
  | .error e => ([], .error e)
  | .ok (raw_string, orig_raw_string, f1) =>
    match raw_string with
    | .bytes s =>
      match read_unsigned_char s with
      | .error e => ([], .error e)
      | .ok (num_entries, _, s1) =>
        let info : Info :=
          { encoding := some encZipmap, sizeofValue := some s.length
          , origDataType := some st.origDataType, origExpiry := st.origExpiry
          , origKey := st.origKey, origRawString := some orig_raw_string }
        let r := zipmap_items st.key (s1.length + 1) s1
        match r.2 with
        | .error e => (Event.startHash st.key num_entries st.expiry info :: r.1, .error e)
        | .ok _ =>
          ((Event.startHash st.key num_entries st.expiry info :: r.1) ++
             [Event.endHash st.key], .ok f1)
    | _ => ([], .error .typeError)

def read_object (flags : IgnoreFlags) (st : PState) (f : List Nat) (enc_type : Nat) :
    PRes (List Nat) :=
  if enc_type = REDIS_RDB_TYPE_STRING then
    match read_string flags f false with
    | .error e => ([], .error e)
    | .ok (val, orig_val, f1) =>
      ([Event.set st.key val st.expiry
          { encoding := some encString, origDataType := some st.origDataType
          , origExpiry := st.origExpiry, origKey := st.origKey
          , origVal := some orig_val }], .ok f1)
  else if enc_type = REDIS_RDB_TYPE_LIST then
    match read_length f with
    | .error e => ([], .error e)
    | .ok (length, orig_length, f1) =>
      let info : Info :=
        { encoding := some encLinkedlist, origDataType := some st.origDataType
        , origExpiry := st.origExpiry, origKey := st.origKey
        , origLength := some orig_length }
      let r := read_list_items flags st.key length f1
      match r.2 with
      | .error e => (Event.startList st.key length st.expiry info :: r.1, .error e)
      | .ok f2 =>
        ((Event.startList st.key length st.expiry info :: r.1) ++
           [Event.endList st.key], .ok f2)
  else if enc_type = REDIS_RDB_TYPE_SET then
    match read_length f with
    | .error e => ([], .error e)
    | .ok (length, orig_length, f1) =>
      let info : Info :=
        { encoding := some encHashtable, origDataType := some st.origDataType
        , origExpiry := st.origExpiry, origKey := st.origKey
        , origLength := some orig_length }
      let r := read_set_items flags st.key length f1
      match r.2 with
      | .error e => (Event.startSet st.key length st.expiry info :: r.1, .error e)
      | .ok f2 =>
        ((Event.startSet st.key length st.expiry info :: r.1) ++
           [Event.endSet st.key], .ok f2)
  else if enc_type = REDIS_RDB_TYPE_ZSET then
    match read_length f with
    | .error e => ([], .error e)
    | .ok (length, orig_length, f1) =>
      let info : Info :=
        { encoding := some encSkiplist, origDataType := some st.origDataType
        , origExpiry := st.origExpiry, origKey := st.origKey
        , origLength := some orig_length }
      let r := read_zset_items flags st.key orig_length length f1
      match r.2 with
      | .error e => (Event.startSortedSet st.key length st.expiry info :: r.1, .error e)
      | .ok f2 =>
        ((Event.startSortedSet st.key length st.expiry info :: r.1) ++
           [Event.endSortedSet st.key], .ok f2)
  else if enc_type = REDIS_RDB_TYPE_HASH then
    match read_length f with
    | .error e => ([], .error e)
    | .ok (length, orig_length, f1) =>
      let info : Info :=
        { encoding := some encHashtable, origDataType := some st.origDataType
        , origExpiry := st.origExpiry, origLength := some orig_length
        , origKey := st.origKey }
      let r := read_hash_items flags st.key length f1
      match r.2 with
      | .error e => (Event.startHash st.key length st.expiry info :: r.1, .error e)
      | .ok f2 =>
        ((Event.startHash st.key length st.expiry info :: r.1) ++
           [Event.endHash st.key], .ok f2)
  else if enc_type = REDIS_RDB_TYPE_HASH_ZIPMAP then read_zipmap flags st f
  else if enc_type = REDIS_RDB_TYPE_LIST_ZIPLIST then read_ziplist flags st f
  else if enc_type = REDIS_RDB_TYPE_SET_INTSET then read_intset flags st f
  else if enc_type = REDIS_RDB_TYPE_ZSET_ZIPLIST then read_zset_from_ziplist flags st f
  else if enc_type = REDIS_RDB_TYPE_HASH_ZIPLIST then read_hash_from_ziplist flags st f
  else ([], .error .invalidObjectType)

/-- The expiry-opcode phase at the top of each parse-loop iteration: returns
the effective data type with its raw byte, the pending expiry (already pushed
through to_datetime) with its raw span, and the remaining stream. -/
def expiry_phase (data_type : Nat) (orig_data_type : List Nat) (f : List Nat) :
    Except PErr (Nat × List Nat × Option Nat × Option (List Nat) × List Nat) :=
  if data_type = REDIS_RDB_OPCODE_EXPIRETIME_MS then
    match read_unsigned_long f with
    | .error e => .error e
    | .ok (expiry, orig_expiry, f1) =>
      match read_unsigned_char f1 with
      | .error e => .error e
      | .ok (dt1, odt1, f2) =>
        .ok (dt1, odt1, some (to_datetime (expiry * 1000)),
             some (orig_data_type ++ orig_expiry), f2)
  else if data_type = REDIS_RDB_OPCODE_EXPIRETIME then
    match read_unsigned_int f with
    | .error e => .error e
    | .ok (expiry, orig_expiry, f1) =>
      match read_unsigned_char f1 with
      | .error e => .error e
      | .ok (dt1, odt1, f2) =>
        .ok (dt1, odt1, some (to_datetime (expiry * 1000000)),
             some (orig_data_type ++ orig_expiry), f2)
  else .ok (data_type, orig_data_type, Option.none, Option.none, f)

/-- The top-level opcode loop of parse.  fuel bounds the number of
iterations; every iteration consumes at least one byte, so parse passes
(stream length + 1) and the fuel never runs out. -/
def parse_loop (flt : Filters) (flags : IgnoreFlags) :
    Nat → PState → Nat → Bool → List Nat → PRes Unit
  | 0, _, _, _, _ => ([], .error .outOfFuel)
  | fuel + 1, st, db_number, is_first_database, f =>
    match read_unsigned_char f with
    | .error e => ([], .error e)
    | .ok (dt0, odt0, f0) =>
      match expiry_phase dt0 odt0 f0 with
      | .error e => ([], .error e)
      | .ok (data_type, odt, expiry, orig_expiry, f1) =>
        let st1 : PState :=
          { st with expiry := expiry, origExpiry := orig_expiry, origDataType := odt }
        if data_type = REDIS_RDB_OPCODE_SELECTDB then
          let pre : List Event :=
            if is_first_database then [] else [Event.endDatabase db_number Option.none]
          match read_length f1 with
          | .error e => (pre, .error e)
          | .ok (new_db, orig_db_number, f2) =>
            let r := parse_loop flt flags fuel st1 new_db false f2
            (pre ++ (Event.startDatabase new_db { origDbNumber := some orig_db_number } :: r.1),
             r.2)
        else if data_type = REDIS_RDB_OPCODE_EOF then
          ([Event.endDatabase db_number (some { origEndDb := some odt }), Event.endRdb],
           .ok ())
        else
          match matches_filter flt db_number RVal.none Option.none with
          | .error e => ([], .error e)
          | .ok true =>
            match read_string flags f1 true with
            | .error e => ([], .error e)
            | .ok (k, orig_key, f2) =>
              let st2 : PState := { st1 with key := k, origKey := some orig_key }
              match matches_filter flt db_number k (some data_type) with
              | .error e => ([], .error e)
              | .ok true =>
                let r := read_object flags st2 f2 data_type
                match r.2 with
                | .error e => (r.1, .error e)
                | .ok f3 =>
                  let r2 := parse_loop flt flags fuel st2 db_number is_first_database f3
                  (r.1 ++ r2.1, r2.2)
              | .ok false =>
                match skip_object f2 data_type with
                | .error e => ([], .error e)
                | .ok f3 => parse_loop flt flags fuel st2 db_number is_first_database f3
          | .ok false =>
            match skip_key_and_object f1 data_type with
            | .error e => ([], .error e)
            | .ok f3 => parse_loop flt flags fuel st1 db_number is_first_database f3

def verify_magic_string (magic_string : List Nat) : Except PErr Unit :=
  if magic_string = [82, 69, 68, 73, 83] then .ok () else .error .badMagic

def verify_version (version_str : List Nat) : Except PErr Unit :=
  match parseAsciiInt version_str with
  | Option.none => .error .valueError
  | some version =>
    if version < 1 ∨ 6 < version then .error .badVersion else .ok ()

def initial_state : PState :=
  { key := .none, origKey := Option.none, expiry := Option.none
  , origExpiry := Option.none, origDataType := [] }

def parse (flt : Filters) (flags : IgnoreFlags) (input : List Nat) : PRes Unit :=
  let magic := input.take 5
  let rest1 := input.drop 5
  let version := rest1.take 4
  let f := rest1.drop 4
  match verify_magic_string magic with
  | .error e => ([], .error e)
  | .ok _ =>
    match verify_version version with
    | .error e => ([], .error e)
    | .ok _ =>
      let r := parse_loop flt flags (f.length + 1) initial_state 0 true f
      (Event.startRdb :: r.1, r.2)

/-- Projection helpers used by the theorems below. -/
def setExpiries (evs : List Event) : List (Option Nat) :=
  evs.filterMap fun e =>
    match e with
    | .set _ _ expiry _ => some expiry
    | _ => Option.none

def countHset (evs : List Event) : Nat :=
  evs.countP fun e =>
    match e with
    | .hset _ _ _ _ => true
    | _ => false

def startHashLens (evs : List Event) : List Nat :=
  evs.filterMap fun e =>
    match e with
    | .startHash _ n _ _ => some n
    | _ => Option.none

/-- The common file header: REDIS magic plus ASCII version 0006. -/
def rdb_header : List Nat := [82, 69, 68, 73, 83, 48, 48, 48, 54]

/-- Parser constructed with the default ignore argument: init_ignore returns
early and leaves both ignore attributes undefined. -/
def flags_default : IgnoreFlags := init_ignore Option.none

/-- A filter whose types axis contains only the string logical type. -/
def filter_strings_only : Filters :=
  { dbs := Option.none, keysPred := fun _ => true, types := [tyString] }

/-- select-db 0; ziplist-encoded list under key lst with the single element
hi; intset-encoded set under key set with the single element 7; EOF. -/
def input_arenas : List Nat :=
  rdb_header ++ [254, 0] ++
  [10] ++ [3, 108, 115, 116] ++
    [15] ++ [15, 0, 0, 0, 0, 0, 0, 0, 1, 0, 0, 2, 104, 105, 255] ++
  [11] ++ [3, 115, 101, 116] ++
    [12] ++ [4, 0, 0, 0, 1, 0, 0, 0, 7, 0, 0, 0] ++
  [255]

/-- select-db 0; a linked-list-encoded list under key key with one element a;
EOF. -/
def input_list : List Nat :=
  rdb_header ++ [254, 0] ++ [1] ++ [3, 107, 101, 121] ++ [1] ++ [1, 97] ++ [255]

/-- select-db 0; zset-ziplist under key zst holding one pair (member a,
immediate score 1), with a valid 0xFF arena sentinel; EOF. -/
def input_zset_ziplist : List Nat :=
  rdb_header ++ [254, 0] ++ [12] ++ [3, 122, 115, 116] ++
    [16] ++ [0, 0, 0, 0, 0, 0, 0, 0, 2, 0, 0, 1, 97, 0, 242, 255] ++ [255]

/-- select-db 0; seconds-expiry opcode 253 with payload 00 10 00 00; a string
object key -> integer-encoded 42; EOF. -/
def input_expiry : List Nat :=
  rdb_header ++ [254, 0] ++ [253, 0, 16, 0, 0] ++ [0] ++
    [3, 107, 101, 121] ++ [192, 42] ++ [255]

/-- select-db 0; seconds-expiry opcode followed directly by select-db 1, then
a string object; EOF.  The expiry is consumed but no object follows it. -/
def input_expiry_selectdb : List Nat :=
  rdb_header ++ [254, 0] ++ [253, 0, 16, 0, 0] ++ [254, 1] ++ [0] ++
    [3, 107, 101, 121] ++ [192, 42] ++ [255]

/-- select-db 0; zipmap-encoded hash under key zmp whose one-byte header
announces 3 entries but whose body stores only 2 pairs before the 0xFF
terminator; EOF. -/
def input_zipmap : List Nat :=
  rdb_header ++ [254, 0] ++ [9] ++ [3, 122, 109, 112] ++
    [12] ++ [3, 1, 97, 1, 0, 120, 1, 98, 1, 0, 121, 255] ++ [255]

instance instDecEqExcept {ε α : Type} [DecidableEq ε] [DecidableEq α] :
    DecidableEq (Except ε α) := fun x y => by
  cases x with
  | ok a =>
    cases y with
    | ok b => exact decidable_of_iff (a = b) (by simp)
    | error e => exact .isFalse (by simp)
  | error e1 =>
    cases y with
    | ok b => exact .isFalse (by simp)
    | error e2 => exact decidable_of_iff (e1 = e2) (by simp)

/-- Claim C1: the claim states that every emitted event, including each
per-element event from the arena decoders, carries an info bag with the raw
byte spans that produced it.  Evaluating the parser on a file holding a
ziplist-encoded list and an intset-encoded set shows the parse succeeding
while the rpush and sadd element events carry no info bag at all (the source
calls rpush with two arguments and sadd with the literal None), so no
per-element raw bytes are delivered. -/
theorem C1_arena_element_events_lack_raw_spans :
    (parse default_filters flags_default input_arenas).2 = .ok () ∧
    Event.rpush (.bytes [108, 115, 116]) (.bytes [104, 105]) Option.none ∈
      (parse default_filters flags_default input_arenas).1 ∧
    Event.sadd (.bytes [115, 101, 116]) (.int 7) Option.none ∈
      (parse default_filters flags_default input_arenas).1 := by
  refine ⟨by decide, by decide, by decide⟩

/-- Claim C2: the claim states that parsing with a filter produces the
unfiltered event sequence minus the discarded events, the skip paths
advancing the cursor exactly as full decoding would, for every object type
including lists.  On a file holding a linked-list object, the unfiltered
parse succeeds, but the same file parsed with a types filter that excludes
lists aborts with a TypeError out of skip_object (the source assigns the
whole (length, raw-bytes) pair returned by read_length as the loop bound),
instead of producing the filtered sequence. -/
theorem C2_filtered_skip_raises_type_error :
    parse filter_strings_only flags_default input_list =
      ([Event.startRdb, Event.startDatabase 0 { origDbNumber := some [0] }],
       .error .typeError) ∧
    (parse default_filters flags_default input_list).2 = .ok () := by
  refine ⟨by decide, by decide⟩

/-- Claim C3: the claim states that each ziplist arena driver raises
CorruptZiplist exactly when the sentinel byte is not 0xFF and otherwise
emits its end event.  On a well-formed zset-ziplist whose arena ends with a
valid 0xFF sentinel, the parse still aborts with CorruptZiplist after the
zadd event and no end_sorted_set event is emitted: the source reads the
sentinel without the [0] projection and compares the whole (value, raw)
pair with 255, which never holds. -/
theorem C3_zset_ziplist_sentinel_check_always_fails :
    (parse default_filters flags_default input_zset_ziplist).2 =
      .error .corruptZiplist ∧
    Event.zadd (.bytes [122, 115, 116]) (.int 1) (.bytes [97]) Option.none ∈
      (parse default_filters flags_default input_zset_ziplist).1 ∧
    Event.endSortedSet (.bytes [122, 115, 116]) ∉
      (parse default_filters flags_default input_zset_ziplist).1 := by
  refine ⟨by decide, by decide, by decide⟩

/-- Claim C5 counterexample: the claim states that the value bytes C0 2A
decode to the string 42.  The string decoder returns the integer 42, which
is not the byte string 42 (bytes 52 50). -/
theorem C5_counterexample_int8_is_integer_not_string :
    read_string flags_default [192, 42] false = .ok (.int 42, [192, 42], []) ∧
    RVal.int 42 ≠ RVal.bytes [52, 50] := by
  refine ⟨by decide, by decide⟩

/-- Claim C5 as amended: for the encoded discriminants INT8, INT16 and INT32
the string decoder returns the signed integer itself (at width 8, 16 and 32
bits, little-endian), not its decimal string form; in particular C0 2A
decodes to the integer 42. -/
theorem C5_integer_encoded_strings_decode_to_integers :
    (∀ (flags : IgnoreFlags) (is_key : Bool) (b : Nat) (rest : List Nat),
      read_string flags (192 :: b :: rest) is_key =
        .ok (.int (toSigned 8 b), [192, b], rest)) ∧
    (∀ (flags : IgnoreFlags) (is_key : Bool) (b0 b1 : Nat) (rest : List Nat),
      read_string flags (193 :: b0 :: b1 :: rest) is_key =
        .ok (.int (toSigned 16 (uintLE [b0, b1])), [193, b0, b1], rest)) ∧
    (∀ (flags : IgnoreFlags) (is_key : Bool) (b0 b1 b2 b3 : Nat) (rest : List Nat),
      read_string flags (194 :: b0 :: b1 :: b2 :: b3 :: rest) is_key =
        .ok (.int (toSigned 32 (uintLE [b0, b1, b2, b3])), [194, b0, b1, b2, b3], rest)) ∧
    read_string flags_default [192, 42] false = .ok (.int 42, [192, 42], []) := by
  refine ⟨fun flags is_key b rest => rfl, fun flags is_key b0 b1 rest => rfl,
    fun flags is_key b0 b1 b2 b3 rest => rfl, by decide⟩

/-- Claim C6 counterexample: the claim states that opcode 253 followed by the
bytes 00 10 00 00 attaches the absolute timestamp 1048576 seconds.  The
parser attaches 4096 seconds (the little-endian u32 value of those bytes),
not 1048576. -/
theorem C6_counterexample_expiry_not_1048576 :
    setExpiries (parse default_filters flags_default input_expiry).1 = [some 4096] ∧
    some (4096 : Nat) ≠ some (1048576 : Nat) := by
  refine ⟨by decide, by decide⟩

/-- Claim C6 as amended: opcode 253 followed by 00 10 00 00 attaches the
absolute timestamp 4096 seconds (the u32 read is little-endian, the value is
scaled to microseconds and to_datetime divides the factor back out). -/
theorem C6_expiry_seconds_value :
    (parse default_filters flags_default input_expiry).2 = .ok () ∧
    setExpiries (parse default_filters flags_default input_expiry).1 = [some 4096] ∧
    uintLE [0, 16, 0, 0] = 4096 ∧
    to_datetime (4096 * 1000000) = 4096 := by
  refine ⟨by decide, by decide, by decide, by decide⟩

theorem ntohl_shape {f : List Nat} {v : Nat} {d r : List Nat}
    (h : ntohl f = .ok (v, d, r)) :
    ¬ f.length < 4 ∧ d = f.take 4 ∧ r = f.drop 4 ∧ v = ntohlSwap (uintLE (f.take 4)) := by
  simp only [ntohl, read_unsigned_int, readBytesExact] at h
  by_cases hl : f.length < 4
  · simp [hl] at h
  · simp only [hl, if_false, if_neg, not_false_iff, Except.ok.injEq, Prod.mk.injEq] at h
    obtain ⟨h1, h2, h3⟩ := h
    exact ⟨hl, h2.symm, h3.symm, h1.symm⟩

theorem ntohl_prefix {d : List Nat} (g : List Nat) (hd : d.length = 4) :
    ntohl (d ++ g) = .ok (ntohlSwap (uintLE d), d, g) := by
  simp only [ntohl, read_unsigned_int, readBytesExact]
  have hnl : ¬ (d ++ g).length < 4 := by simp [List.length_append, hd]
  rw [if_neg hnl, List.take_left' hd, List.drop_left' hd]

/-- Claim C7: decoding a length prefix and re-decoding the raw bytes it
returns yields the same length and the same encoded-flag, for all four
prefix forms; the raw bytes are self-delimiting, so any continuation can
follow them. -/
theorem C7_length_prefix_roundtrip :
    ∀ (f : List Nat) (len : Nat) (enc : Bool) (raw rest g : List Nat),
      read_length_with_encoding f = .ok (len, enc, raw, rest) →
      read_length_with_encoding (raw ++ g) = .ok (len, enc, raw, g) := by
  intro f len enc raw rest g h
  cases f with
  | nil => simp [read_length_with_encoding, read_unsigned_char] at h
  | cons b f1 =>
    simp only [read_length_with_encoding, read_unsigned_char] at h
    split at h
    · -- encoded special form: one byte
      next hc =>
      simp only [Except.ok.injEq, Prod.mk.injEq] at h
      obtain ⟨h1, h2, h3, h4⟩ := h
      subst h1; subst h2; subst h3
      simp [read_length_with_encoding, read_unsigned_char, hc]
    · next hc1 =>
      split at h
      · -- six-bit form: one byte
        next hc2 =>
        simp only [Except.ok.injEq, Prod.mk.injEq] at h
        obtain ⟨h1, h2, h3, h4⟩ := h
        subst h1; subst h2; subst h3
        simp [read_length_with_encoding, read_unsigned_char, hc1, hc2,
          REDIS_RDB_ENCVAL, REDIS_RDB_6BITLEN]
      · next hc2 =>
        split at h
        · -- fourteen-bit form: two bytes
          next hc3 =>
          cases f1 with
          | nil => simp [read_unsigned_char] at h
          | cons c f2 =>
            simp only [read_unsigned_char, Except.ok.injEq, Prod.mk.injEq] at h
            obtain ⟨h1, h2, h3, h4⟩ := h
            subst h1; subst h2; subst h3
            simp [read_length_with_encoding, read_unsigned_char, hc1, hc2, hc3,
              REDIS_RDB_ENCVAL, REDIS_RDB_6BITLEN, REDIS_RDB_14BITLEN]
        · -- thirty-two-bit form: the tag byte plus a four-byte ntohl read
          next hc3 =>
          cases hn : ntohl f1 with
          | error e => rw [hn] at h; cases h
          | ok t =>
            obtain ⟨v, d, f2⟩ := t
            rw [hn] at h
            simp only [Except.ok.injEq, Prod.mk.injEq] at h
            obtain ⟨h1, h2, h3, h4⟩ := h
            subst h1; subst h2; subst h3
            obtain ⟨hlen, hd, hr, hv⟩ := ntohl_shape hn
            have hdlen : d.length = 4 := by
              rw [hd]; simp [List.length_take]; omega
            have hstep : ([b] ++ d) ++ g = b :: (d ++ g) := by simp
            rw [hstep]
            simp only [read_length_with_encoding, read_unsigned_char]
            rw [if_neg hc1, if_neg hc2, if_neg hc3, ntohl_prefix g hdlen]
            rw [hv, hd]

/-- Witness for C7 at the 14-bit prefix 41 05, which decodes to length 261. -/
theorem C7_length_prefix_roundtrip_witness :
    read_length_with_encoding ([65, 5] ++ []) = .ok (261, false, [65, 5], []) :=
  C7_length_prefix_roundtrip [65, 5] 261 false [65, 5] [] [] (by decide)

theorem lzfCopyRef_ok :
    ∀ (k : Nat) (out : List Nat) (ref : Nat), ref < out.length →
      ∃ t, lzfCopyRef out (ref : Int) k = .ok (out ++ t) ∧ t.length = k ∧
        ∀ i, i < k → (out ++ t)[out.length + i]? = (out ++ t)[ref + i]? := by
  intro k
  induction k with
  | zero =>
    intro out ref _href
    refine ⟨[], by simp [lzfCopyRef], rfl, ?_⟩
    intro i hi; omega
  | succ k ih =>
    intro out ref href
    have hpy : pyIndex out (ref : Int) = some out[ref] := by
      simp only [pyIndex]
      rw [if_neg (by omega : ¬ ((ref : Int) < 0)), if_neg (by omega : ¬ ((ref : Int) < 0))]
      have : ((ref : Int)).toNat = ref := by omega
      rw [this, List.getElem?_eq_getElem href]
    have hcast : ((ref : Int) + 1) = (((ref + 1 : Nat)) : Int) := by push_cast; ring
    obtain ⟨t', hrun, hlen, hprop⟩ := ih (out ++ [out[ref]]) (ref + 1) (by simp; omega)
    refine ⟨out[ref] :: t', ?_, by simp [hlen], ?_⟩
    · simp only [lzfCopyRef, hpy]
      rw [hcast, hrun]
      congr 1
      simp
    · intro i hi
      have hres : out ++ (out[ref] :: t') = (out ++ [out[ref]]) ++ t' := by simp
      cases i with
      | zero =>
        simp only [Nat.add_zero]
        rw [hres]
        have hL : ((out ++ [out[ref]]) ++ t')[out.length]? = some out[ref] := by
          rw [List.getElem?_append_left (by simp)]
          rw [List.getElem?_append_right (by omega)]
          simp
        have hR : ((out ++ [out[ref]]) ++ t')[ref]? = some out[ref] := by
          rw [List.getElem?_append_left (by simp; omega)]
          rw [List.getElem?_append_left href]
          exact List.getElem?_eq_getElem href
        rw [hL, hR]
      | succ j =>
        rw [hres]
        have e1 : out.length + (j + 1) = (out ++ [out[ref]]).length + j := by
          simp; omega
        have e2 : ref + (j + 1) = (ref + 1) + j := by omega
        rw [e1, e2]
        exact hprop j (by omega)

/-- Claim C4: the LZF decompressor processes a control byte c below 32 as a
literal run of c + 1 input bytes copied to the output; otherwise the run
length is c >>> 5, extended by one input byte exactly when that equals 7,
the reference offset is out_len - ((c and 0x1F) << 8) - next_byte - 1, and
length + 2 bytes are copied one at a time from that offset in the growing
output, so self-overlapping runs replicate; at end of input it raises
CorruptLzf exactly when the output length differs from the expected length
and otherwise returns the reconstructed bytes. -/
theorem C4_lzf_control_byte_processing :
    (∀ (fuel c : Nat) (rest out : List Nat), c < 32 → c + 1 ≤ rest.length →
      lzfLoop (fuel + 1) (c :: rest) out =
        lzfLoop fuel (rest.drop (c + 1)) (out ++ rest.take (c + 1))) ∧
    (∀ (fuel c b : Nat) (rest out : List Nat), 32 ≤ c → c >>> 5 ≠ 7 →
      lzfLoop (fuel + 1) (c :: b :: rest) out =
        (match lzfCopyRef out
            ((out.length : Int) - ((((c &&& 0x1f) <<< 8) : Nat) : Int) - (b : Int) - 1)
            ((c >>> 5) + 2) with
         | .error e => .error e
         | .ok out2 => lzfLoop fuel rest out2)) ∧
    (∀ (fuel c e b : Nat) (rest out : List Nat), 32 ≤ c → c >>> 5 = 7 →
      lzfLoop (fuel + 1) (c :: e :: b :: rest) out =
        (match lzfCopyRef out
            ((out.length : Int) - ((((c &&& 0x1f) <<< 8) : Nat) : Int) - (b : Int) - 1)
            ((7 + e) + 2) with
         | .error e => .error e
         | .ok out2 => lzfLoop fuel rest out2)) ∧
    (∀ (k : Nat) (out : List Nat) (ref : Nat), ref < out.length →
      ∃ t, lzfCopyRef out (ref : Int) k = .ok (out ++ t) ∧ t.length = k ∧
        ∀ i, i < k → (out ++ t)[out.length + i]? = (out ++ t)[ref + i]?) ∧
    (∀ (compressed : List Nat) (expected_length : Nat) (out : List Nat),
      lzfLoop (compressed.length + 1) compressed [] = .ok out →
      (out.length = expected_length →
        lzf_decompress compressed expected_length = .ok out) ∧
      (out.length ≠ expected_length →
        lzf_decompress compressed expected_length = .error .corruptLzf)) := by
  refine ⟨?_, ?_, ?_, lzfCopyRef_ok, ?_⟩
  · intro fuel c rest out h1 h2
    simp only [lzfLoop, lzfIter]
    rw [if_pos h1, if_pos h2]
  · intro fuel c b rest out h1 h2
    simp only [lzfLoop, lzfIter]
    rw [if_neg (by omega : ¬ c < 32), if_neg h2]
  · intro fuel c e b rest out h1 h2
    simp only [lzfLoop, lzfIter]
    rw [if_neg (by omega : ¬ c < 32), if_pos h2, h2]
  · intro compressed expected_length out h
    constructor
    · intro he
      simp [lzf_decompress, h, he]
    · intro hne
      simp [lzf_decompress, h, hne]

/-- Witness for C4: the stream 00 61 20 00 declares one literal byte a and a
back-reference of three bytes at offset 0, replicating the single output
byte into aaaa; the expected-length check accepts 4 and rejects 5. -/
theorem C4_lzf_control_byte_processing_witness :
    lzfLoop 5 [0, 97, 32, 0] [] = .ok [97, 97, 97, 97] ∧
    lzfLoop 4 [32, 0] [97] = .ok [97, 97, 97, 97] ∧
    lzfLoop 2 [224, 0, 0] [97] = .ok [97, 97, 97, 97, 97, 97, 97, 97, 97, 97] ∧
    (∃ t, lzfCopyRef [97] ((0 : Nat) : Int) 3 = .ok ([97] ++ t) ∧ t.length = 3) ∧
    lzf_decompress [0, 97, 32, 0] 4 = .ok [97, 97, 97, 97] ∧
    lzf_decompress [0, 97, 32, 0] 5 = .error .corruptLzf := by
  obtain ⟨h1, h2, h3, h4, h5⟩ := C4_lzf_control_byte_processing
  have hlit : lzfLoop 5 [0, 97, 32, 0] [] = .ok [97, 97, 97, 97] := by
    rw [h1 4 0 [97, 32, 0] [] (by decide) (by decide)]
    decide
  have hback : lzfLoop 4 [32, 0] [97] = .ok [97, 97, 97, 97] := by
    rw [h2 3 32 0 [] [97] (by decide) (by decide)]
    decide
  have hext : lzfLoop 2 [224, 0, 0] [97] =
      .ok [97, 97, 97, 97, 97, 97, 97, 97, 97, 97] := by
    rw [h3 1 224 0 0 [] [97] (by decide) (by decide)]
    decide
  obtain ⟨t, hct, htl, _⟩ := h4 3 [97] 0 (by decide)
  exact ⟨hlit, hback, hext, ⟨t, hct, htl⟩,
    (h5 [0, 97, 32, 0] 4 [97, 97, 97, 97] hlit).1 rfl,
    (h5 [0, 97, 32, 0] 5 [97, 97, 97, 97] hlit).2 (by decide)⟩

theorem read_list_items_shape (flags : IgnoreFlags) (key : RVal) :
    ∀ (n : Nat) (f : List Nat) (evs : List Event) (rest : List Nat),
      read_list_items flags key n f = (evs, .ok rest) →
      evs.length = n ∧ ∀ e ∈ evs, ∃ v i, e = Event.rpush key v (some i) := by
  intro n
  induction n with
  | zero =>
    intro f evs rest h
    simp only [read_list_items, Prod.mk.injEq] at h
    obtain ⟨h1, h2⟩ := h
    subst h1
    simp
  | succ n ih =>
    intro f evs rest h
    simp only [read_list_items] at h
    split at h
    · simp at h
    · next val oval f1 heq =>
      cases hr : read_list_items flags key n f1 with
      | mk evs1 res1 =>
        rw [hr] at h
        simp only [Prod.mk.injEq] at h
        obtain ⟨h1, h2⟩ := h
        subst h1
        rw [h2] at hr
        obtain ⟨hl, hall⟩ := ih f1 evs1 rest hr
        refine ⟨by simp [hl], ?_⟩
        intro e he
        rcases List.mem_cons.mp he with h | h
        · exact ⟨val, _, h⟩
        · exact hall e h

theorem read_set_items_shape (flags : IgnoreFlags) (key : RVal) :
    ∀ (n : Nat) (f : List Nat) (evs : List Event) (rest : List Nat),
      read_set_items flags key n f = (evs, .ok rest) →
      evs.length = n ∧ ∀ e ∈ evs, ∃ v i, e = Event.sadd key v (some i) := by
  intro n
  induction n with
  | zero =>
    intro f evs rest h
    simp only [read_set_items, Prod.mk.injEq] at h
    obtain ⟨h1, h2⟩ := h
    subst h1
    simp
  | succ n ih =>
    intro f evs rest h
    simp only [read_set_items] at h
    split at h
    · simp at h
    · next val oval f1 heq =>
      cases hr : read_set_items flags key n f1 with
      | mk evs1 res1 =>
        rw [hr] at h
        simp only [Prod.mk.injEq] at h
        obtain ⟨h1, h2⟩ := h
        subst h1
        rw [h2] at hr
        obtain ⟨hl, hall⟩ := ih f1 evs1 rest hr
        refine ⟨by simp [hl], ?_⟩
        intro e he
        rcases List.mem_cons.mp he with h | h
        · exact ⟨val, _, h⟩
        · exact hall e h

theorem read_zset_items_shape (flags : IgnoreFlags) (key : RVal) (orig_length : List Nat) :
    ∀ (n : Nat) (f : List Nat) (evs : List Event) (rest : List Nat),
      read_zset_items flags key orig_length n f = (evs, .ok rest) →
      evs.length = n ∧ ∀ e ∈ evs, ∃ sc v i, e = Event.zadd key sc v (some i) := by
  intro n
  induction n with
  | zero =>
    intro f evs rest h
    simp only [read_zset_items, Prod.mk.injEq] at h
    obtain ⟨h1, h2⟩ := h
    subst h1
    simp
  | succ n ih =>
    intro f evs rest h
    simp only [read_zset_items] at h
    split at h
    · simp at h
    · next val oval f1 heq =>
      split at h
      · simp at h
      · next dbl odbl f2 heq2 =>
        cases hr : read_zset_items flags key orig_length n ((fRead dbl f2).2) with
        | mk evs1 res1 =>
          rw [hr] at h
          simp only [Prod.mk.injEq] at h
          obtain ⟨h1, h2⟩ := h
          subst h1
          rw [h2] at hr
          obtain ⟨hl, hall⟩ := ih ((fRead dbl f2).2) evs1 rest hr
          refine ⟨by simp [hl], ?_⟩
          intro e he
          rcases List.mem_cons.mp he with h | h
          · exact ⟨_, val, _, h⟩
          · exact hall e h

theorem read_hash_items_shape (flags : IgnoreFlags) (key : RVal) :
    ∀ (n : Nat) (f : List Nat) (evs : List Event) (rest : List Nat),
      read_hash_items flags key n f = (evs, .ok rest) →
      evs.length = n ∧ ∀ e ∈ evs, ∃ fld v i, e = Event.hset key fld v (some i) := by
  intro n
  induction n with
  | zero =>
    intro f evs rest h
    simp only [read_hash_items, Prod.mk.injEq] at h
    obtain ⟨h1, h2⟩ := h
    subst h1
    simp
  | succ n ih =>
    intro f evs rest h
    simp only [read_hash_items] at h
    split at h
    · simp at h
    · next fld ofld f1 heq =>
      split at h
      · simp at h
      · next val oval f2 heq2 =>
        cases hr : read_hash_items flags key n f2 with
        | mk evs1 res1 =>
          rw [hr] at h
          simp only [Prod.mk.injEq] at h
          obtain ⟨h1, h2⟩ := h
          subst h1
          rw [h2] at hr
          obtain ⟨hl, hall⟩ := ih f2 evs1 rest hr
          refine ⟨by simp [hl], ?_⟩
          intro e he
          rcases List.mem_cons.mp he with h | h
          · exact ⟨fld, val, _, h⟩
          · exact hall e h

theorem ziplist_items_shape (key : RVal) :
    ∀ (n : Nat) (s : List Nat) (evs : List Event) (rest : List Nat),
      ziplist_items key n s = (evs, .ok rest) →
      evs.length = n ∧ ∀ e ∈ evs, ∃ v, e = Event.rpush key v Option.none := by
  intro n
  induction n with
  | zero =>
    intro s evs rest h
    simp only [ziplist_items, Prod.mk.injEq] at h
    obtain ⟨h1, h2⟩ := h
    subst h1
    simp
  | succ n ih =>
    intro s evs rest h
    simp only [ziplist_items] at h
    split at h
    · simp at h
    · next val s1 heq =>
      cases hr : ziplist_items key n s1 with
      | mk evs1 res1 =>
        rw [hr] at h
        simp only [Prod.mk.injEq] at h
        obtain ⟨h1, h2⟩ := h
        subst h1
        rw [h2] at hr
        obtain ⟨hl, hall⟩ := ih s1 evs1 rest hr
        refine ⟨by simp [hl], ?_⟩
        intro e he
        rcases List.mem_cons.mp he with h | h
        · exact ⟨val, h⟩
        · exact hall e h

theorem zset_ziplist_items_shape (key : RVal) :
    ∀ (n : Nat) (s : List Nat) (evs : List Event) (rest : List Nat),
      zset_ziplist_items key n s = (evs, .ok rest) →
      evs.length = n ∧ ∀ e ∈ evs, ∃ sc v, e = Event.zadd key sc v Option.none := by
  intro n
  induction n with
  | zero =>
    intro s evs rest h
    simp only [zset_ziplist_items, Prod.mk.injEq] at h
    obtain ⟨h1, h2⟩ := h
    subst h1
    simp
  | succ n ih =>
    intro s evs rest h
    simp only [zset_ziplist_items] at h
    split at h
    · simp at h
    · next member s1 heq =>
      split at h
      · simp at h
      · next score s2 heq2 =>
        cases hr : zset_ziplist_items key n s2 with
        | mk evs1 res1 =>
          rw [hr] at h
          simp only [Prod.mk.injEq] at h
          obtain ⟨h1, h2⟩ := h
          subst h1
          rw [h2] at hr
          obtain ⟨hl, hall⟩ := ih s2 evs1 rest hr
          refine ⟨by simp [hl], ?_⟩
          intro e he
          rcases List.mem_cons.mp he with h | h
          · exact ⟨score, member, h⟩
          · exact hall e h

theorem hash_ziplist_items_shape (flags : IgnoreFlags) (key : RVal) :
    ∀ (n : Nat) (s : List Nat) (evs : List Event) (rest : List Nat),
      hash_ziplist_items flags key n s = (evs, .ok rest) →
      evs.length = n ∧ ∀ e ∈ evs, ∃ fld v, e = Event.hset key fld v Option.none := by
  intro n
  induction n with
  | zero =>
    intro s evs rest h
    simp only [hash_ziplist_items, Prod.mk.injEq] at h
    obtain ⟨h1, h2⟩ := h
    subst h1
    simp
  | succ n ih =>
    intro s evs rest h
    simp only [hash_ziplist_items] at h
    split at h
    · simp at h
    · next fld s1 heq =>
      split at h
      · simp at h
      · next val s2 heq2 =>
        cases hr : hash_ziplist_items flags key n s2 with
        | mk evs1 res1 =>
          rw [hr] at h
          simp only [Prod.mk.injEq] at h
          obtain ⟨h1, h2⟩ := h
          subst h1
          rw [h2] at hr
          obtain ⟨hl, hall⟩ := ih s2 evs1 rest hr
          refine ⟨by simp [hl], ?_⟩
          intro e he
          rcases List.mem_cons.mp he with h | h
          · exact ⟨fld, val, h⟩
          · exact hall e h

theorem intset_items_shape (key : RVal) (encoding : Nat) :
    ∀ (n : Nat) (s : List Nat) (evs : List Event) (u : Unit),
      intset_items key encoding n s = (evs, .ok u) →
      evs.length = n ∧ ∀ e ∈ evs, ∃ v, e = Event.sadd key (.int v) Option.none := by
  intro n
  induction n with
  | zero =>
    intro s evs u h
    simp only [intset_items, Prod.mk.injEq] at h
    obtain ⟨h1, h2⟩ := h
    subst h1
    simp
  | succ n ih =>
    intro s evs u h
    simp only [intset_items] at h
    split at h
    · simp at h
    · next v s1 heq =>
      cases hr : intset_items key encoding n s1 with
      | mk evs1 res1 =>
        rw [hr] at h
        simp only [Prod.mk.injEq] at h
        obtain ⟨h1, h2⟩ := h
        subst h1
        rw [h2] at hr
        obtain ⟨hl, hall⟩ := ih s1 evs1 u hr
        refine ⟨by simp [hl], ?_⟩
        intro e he
        rcases List.mem_cons.mp he with h | h
        · exact ⟨v, h⟩
        · exact hall e h

theorem zipmap_items_shape (key : RVal) :
    ∀ (fuel : Nat) (s : List Nat) (evs : List Event) (r : Except PErr (List Nat)),
      zipmap_items key fuel s = (evs, r) →
      ∀ e ∈ evs, ∃ zk v, e = Event.hset key zk v Option.none := by
  intro fuel
  induction fuel with
  | zero =>
    intro s evs r h
    simp only [zipmap_items, Prod.mk.injEq] at h
    obtain ⟨h1, h2⟩ := h
    subst h1
    simp
  | succ fuel ih =>
    intro s evs r h
    simp only [zipmap_items] at h
    split at h
    · simp only [Prod.mk.injEq] at h
      obtain ⟨h1, h2⟩ := h
      subst h1
      simp
    · simp only [Prod.mk.injEq] at h
      obtain ⟨h1, h2⟩ := h
      subst h1
      simp
    · next n1 s1 heq =>
      split at h
      · simp only [Prod.mk.injEq] at h
        obtain ⟨h1, h2⟩ := h
        subst h1
        simp
      · simp only [Prod.mk.injEq] at h
        obtain ⟨h1, h2⟩ := h
        subst h1
        simp
      · next n2 s3 heq2 =>
        split at h
        · simp only [Prod.mk.injEq] at h
          obtain ⟨h1, h2⟩ := h
          subst h1
          simp
        · next free fr s4 heq3 =>
          cases hr : zipmap_items key fuel (((fRead n2 s4).2).drop free) with
          | mk evs1 res1 =>
            rw [hr] at h
            simp only [Prod.mk.injEq] at h
            obtain ⟨h1, h2⟩ := h
            subst h1
            intro e he
            rcases List.mem_cons.mp he with h | h
            · exact ⟨_, _, h⟩
            · exact ih _ evs1 res1 hr e h

theorem read_object_list_count :
    ∀ (flags : IgnoreFlags) (st : PState) (f : List Nat) (evs : List Event) (rest : List Nat),
      read_object flags st f REDIS_RDB_TYPE_LIST = (evs, .ok rest) →
      ∃ n i mids, evs = (Event.startList st.key n st.expiry i :: mids) ++ [Event.endList st.key] ∧
        mids.length = n ∧ ∀ e ∈ mids, ∃ v j, e = Event.rpush st.key v (some j) := by
  intro flags st f evs rest h
  simp only [read_object, REDIS_RDB_TYPE_STRING, REDIS_RDB_TYPE_LIST] at h
  norm_num at h
  split at h
  · simp at h
  · next length olen f1 heq =>
    cases hr : read_list_items flags st.key length f1 with
    | mk evs1 res1 =>
      rw [hr] at h
      cases res1 with
      | error e => simp at h
      | ok f2 =>
        simp only [Prod.mk.injEq] at h
        obtain ⟨h1, h2⟩ := h
        obtain ⟨hl, hall⟩ := read_list_items_shape flags st.key length f1 evs1 f2 hr
        exact ⟨length, _, evs1, h1.symm, hl, hall⟩

theorem read_object_set_count :
    ∀ (flags : IgnoreFlags) (st : PState) (f : List Nat) (evs : List Event) (rest : List Nat),
      read_object flags st f REDIS_RDB_TYPE_SET = (evs, .ok rest) →
      ∃ n i mids, evs = (Event.startSet st.key n st.expiry i :: mids) ++ [Event.endSet st.key] ∧
        mids.length = n ∧ ∀ e ∈ mids, ∃ v j, e = Event.sadd st.key v (some j) := by
  intro flags st f evs rest h
  simp only [read_object, REDIS_RDB_TYPE_STRING, REDIS_RDB_TYPE_LIST,
    REDIS_RDB_TYPE_SET] at h
  norm_num at h
  split at h
  · simp at h
  · next length olen f1 heq =>
    cases hr : read_set_items flags st.key length f1 with
    | mk evs1 res1 =>
      rw [hr] at h
      cases res1 with
      | error e => simp at h
      | ok f2 =>
        simp only [Prod.mk.injEq] at h
        obtain ⟨h1, h2⟩ := h
        obtain ⟨hl, hall⟩ := read_set_items_shape flags st.key length f1 evs1 f2 hr
        exact ⟨length, _, evs1, h1.symm, hl, hall⟩

theorem read_object_zset_count :
    ∀ (flags : IgnoreFlags) (st : PState) (f : List Nat) (evs : List Event) (rest : List Nat),
      read_object flags st f REDIS_RDB_TYPE_ZSET = (evs, .ok rest) →
      ∃ n i mids,
        evs = (Event.startSortedSet st.key n st.expiry i :: mids) ++ [Event.endSortedSet st.key] ∧
        mids.length = n ∧ ∀ e ∈ mids, ∃ sc v j, e = Event.zadd st.key sc v (some j) := by
  intro flags st f evs rest h
  simp only [read_object, REDIS_RDB_TYPE_STRING, REDIS_RDB_TYPE_LIST,
    REDIS_RDB_TYPE_SET, REDIS_RDB_TYPE_ZSET] at h
  norm_num at h
  split at h
  · simp at h
  · next length olen f1 heq =>
    cases hr : read_zset_items flags st.key olen length f1 with
    | mk evs1 res1 =>
      rw [hr] at h
      cases res1 with
      | error e => simp at h
      | ok f2 =>
        simp only [Prod.mk.injEq] at h
        obtain ⟨h1, h2⟩ := h
        obtain ⟨hl, hall⟩ := read_zset_items_shape flags st.key olen length f1 evs1 f2 hr
        exact ⟨length, _, evs1, h1.symm, hl, hall⟩

theorem read_object_hash_count :
    ∀ (flags : IgnoreFlags) (st : PState) (f : List Nat) (evs : List Event) (rest : List Nat),
      read_object flags st f REDIS_RDB_TYPE_HASH = (evs, .ok rest) →
      ∃ n i mids, evs = (Event.startHash st.key n st.expiry i :: mids) ++ [Event.endHash st.key] ∧
        mids.length = n ∧ ∀ e ∈ mids, ∃ fld v j, e = Event.hset st.key fld v (some j) := by
  intro flags st f evs rest h
  simp only [read_object, REDIS_RDB_TYPE_STRING, REDIS_RDB_TYPE_LIST,
    REDIS_RDB_TYPE_SET, REDIS_RDB_TYPE_ZSET, REDIS_RDB_TYPE_HASH] at h
  norm_num at h
  split at h
  · simp at h
  · next length olen f1 heq =>
    cases hr : read_hash_items flags st.key length f1 with
    | mk evs1 res1 =>
      rw [hr] at h
      cases res1 with
      | error e => simp at h
      | ok f2 =>
        simp only [Prod.mk.injEq] at h
        obtain ⟨h1, h2⟩ := h
        obtain ⟨hl, hall⟩ := read_hash_items_shape flags st.key length f1 evs1 f2 hr
        exact ⟨length, _, evs1, h1.symm, hl, hall⟩

theorem read_object_ziplist_count :
    ∀ (flags : IgnoreFlags) (st : PState) (f : List Nat) (evs : List Event) (rest : List Nat),
      read_object flags st f REDIS_RDB_TYPE_LIST_ZIPLIST = (evs, .ok rest) →
      ∃ n i mids, evs = (Event.startList st.key n st.expiry i :: mids) ++ [Event.endList st.key] ∧
        mids.length = n ∧ ∀ e ∈ mids, ∃ v, e = Event.rpush st.key v Option.none := by
  intro flags st f evs rest h
  simp only [read_object, REDIS_RDB_TYPE_STRING, REDIS_RDB_TYPE_LIST,
    REDIS_RDB_TYPE_SET, REDIS_RDB_TYPE_ZSET, REDIS_RDB_TYPE_HASH,
    REDIS_RDB_TYPE_HASH_ZIPMAP, REDIS_RDB_TYPE_LIST_ZIPLIST] at h
  norm_num at h
  simp only [read_ziplist] at h
  split at h
  · simp at h
  · next rawV oraw f1 heq =>
    split at h
    · next s =>
      split at h
      · simp at h
      · next zlb zlbraw s1 heq1 =>
        split at h
        · simp at h
        · next tl tlraw s2 heq2 =>
          split at h
          · simp at h
          · next num numraw s3 heq3 =>
            cases hr : ziplist_items st.key num s3 with
            | mk evs1 res1 =>
              rw [hr] at h
              cases res1 with
              | error e => simp at h
              | ok s4 =>
                obtain ⟨hl, hall⟩ := ziplist_items_shape st.key num s3 evs1 s4 hr
                simp only [ne_eq, ite_not] at h
                split at h
                · simp at h
                · split at h
                  · simp only [Prod.mk.injEq] at h
                    obtain ⟨h1, h2⟩ := h
                    exact ⟨num, _, evs1, h1.symm, hl, hall⟩
                  · simp at h
    · simp at h

theorem read_object_intset_count :
    ∀ (flags : IgnoreFlags) (st : PState) (f : List Nat) (evs : List Event) (rest : List Nat),
      read_object flags st f REDIS_RDB_TYPE_SET_INTSET = (evs, .ok rest) →
      ∃ n i mids, evs = (Event.startSet st.key n st.expiry i :: mids) ++ [Event.endSet st.key] ∧
        mids.length = n ∧ ∀ e ∈ mids, ∃ v, e = Event.sadd st.key (.int v) Option.none := by
  intro flags st f evs rest h
  simp only [read_object, REDIS_RDB_TYPE_STRING, REDIS_RDB_TYPE_LIST,
    REDIS_RDB_TYPE_SET, REDIS_RDB_TYPE_ZSET, REDIS_RDB_TYPE_HASH,
    REDIS_RDB_TYPE_HASH_ZIPMAP, REDIS_RDB_TYPE_LIST_ZIPLIST,
    REDIS_RDB_TYPE_SET_INTSET] at h
  norm_num at h
  simp only [read_intset] at h
  split at h
  · simp at h
  · next rawV oraw f1 heq =>
    split at h
    · next s =>
      split at h
      · simp at h
      · next enc encraw s1 heq1 =>
        split at h
        · simp at h
        · next num numraw s2 heq2 =>
          cases hr : intset_items st.key enc num s2 with
          | mk evs1 res1 =>
            rw [hr] at h
            cases res1 with
            | error e => simp at h
            | ok u =>
              obtain ⟨hl, hall⟩ := intset_items_shape st.key enc num s2 evs1 u hr
              simp only [Prod.mk.injEq] at h
              obtain ⟨h1, h2⟩ := h
              exact ⟨num, _, evs1, h1.symm, hl, hall⟩
    · simp at h

theorem read_object_hash_ziplist_count :
    ∀ (flags : IgnoreFlags) (st : PState) (f : List Nat) (evs : List Event) (rest : List Nat),
      read_object flags st f REDIS_RDB_TYPE_HASH_ZIPLIST = (evs, .ok rest) →
      ∃ n i mids, evs = (Event.startHash st.key n st.expiry i :: mids) ++ [Event.endHash st.key] ∧
        mids.length = n ∧ ∀ e ∈ mids, ∃ fld v, e = Event.hset st.key fld v Option.none := by
  intro flags st f evs rest h
  simp only [read_object, REDIS_RDB_TYPE_STRING, REDIS_RDB_TYPE_LIST,
    REDIS_RDB_TYPE_SET, REDIS_RDB_TYPE_ZSET, REDIS_RDB_TYPE_HASH,
    REDIS_RDB_TYPE_HASH_ZIPMAP, REDIS_RDB_TYPE_LIST_ZIPLIST,
    REDIS_RDB_TYPE_SET_INTSET, REDIS_RDB_TYPE_ZSET_ZIPLIST,
    REDIS_RDB_TYPE_HASH_ZIPLIST] at h
  norm_num at h
  simp only [read_hash_from_ziplist] at h
  split at h
  · simp at h
  · next rawV oraw f1 heq =>
    split at h
    · next s =>
      split at h
      · simp at h
      · next zlb zlbraw s1 heq1 =>
        split at h
        · simp at h
        · next tl tlraw s2 heq2 =>
          split at h
          · simp at h
          · next num numraw s3 heq3 =>
            simp only [ne_eq, ite_not] at h
            split at h
            · cases hr : hash_ziplist_items flags st.key (num / 2) s3 with
              | mk evs1 res1 =>
                rw [hr] at h
                cases res1 with
                | error e => simp at h
                | ok s4 =>
                  obtain ⟨hl, hall⟩ :=
                    hash_ziplist_items_shape flags st.key (num / 2) s3 evs1 s4 hr
                  simp only [] at h
                  split at h
                  · simp at h
                  · split at h
                    · simp at h
                    · split at h
                      · simp only [Prod.mk.injEq] at h
                        obtain ⟨h1, h2⟩ := h
                        exact ⟨num / 2, _, evs1, h1.symm, hl, hall⟩
                      · simp at h
                  · simp only [Prod.mk.injEq] at h
                    obtain ⟨h1, h2⟩ := h
                    exact ⟨num / 2, _, evs1, h1.symm, hl, hall⟩
            · simp at h
    · simp at h

theorem read_object_zipmap_shape :
    ∀ (flags : IgnoreFlags) (st : PState) (f : List Nat) (evs : List Event) (rest : List Nat),
      read_object flags st f REDIS_RDB_TYPE_HASH_ZIPMAP = (evs, .ok rest) →
      ∃ n i mids, evs = (Event.startHash st.key n st.expiry i :: mids) ++ [Event.endHash st.key] ∧
        ∀ e ∈ mids, ∃ zk v, e = Event.hset st.key zk v Option.none := by
  intro flags st f evs rest h
  simp only [read_object, REDIS_RDB_TYPE_STRING, REDIS_RDB_TYPE_LIST,
    REDIS_RDB_TYPE_SET, REDIS_RDB_TYPE_ZSET, REDIS_RDB_TYPE_HASH,
    REDIS_RDB_TYPE_HASH_ZIPMAP] at h
  norm_num at h
  simp only [read_zipmap] at h
  split at h
  · simp at h
  · next rawV oraw f1 heq =>
    split at h
    · next s =>
      split at h
      · simp at h
      · next num numraw s1 heq1 =>
        cases hr : zipmap_items st.key (s1.length + 1) s1 with
        | mk evs1 res1 =>
          rw [hr] at h
          cases res1 with
          | error e => simp at h
          | ok s2 =>
            have hall := zipmap_items_shape st.key (s1.length + 1) s1 evs1 (.ok s2) hr
            simp only [Prod.mk.injEq] at h
            obtain ⟨h1, h2⟩ := h
            exact ⟨num, _, evs1, h1.symm, hall⟩
    · simp at h

theorem read_object_zset_ziplist_no_ok :
    ∀ (flags : IgnoreFlags) (st : PState) (f : List Nat) (evs : List Event) (rest : List Nat),
      read_object flags st f REDIS_RDB_TYPE_ZSET_ZIPLIST ≠ (evs, .ok rest) := by
  intro flags st f evs rest h
  simp only [read_object, REDIS_RDB_TYPE_STRING, REDIS_RDB_TYPE_LIST,
    REDIS_RDB_TYPE_SET, REDIS_RDB_TYPE_ZSET, REDIS_RDB_TYPE_HASH,
    REDIS_RDB_TYPE_HASH_ZIPMAP, REDIS_RDB_TYPE_LIST_ZIPLIST,
    REDIS_RDB_TYPE_SET_INTSET, REDIS_RDB_TYPE_ZSET_ZIPLIST] at h
  norm_num at h
  simp only [read_zset_from_ziplist] at h
  split at h
  · simp at h
  · next rawV oraw f1 heq =>
    split at h
    · next s =>
      split at h
      · simp at h
      · next zlb zlbraw s1 heq1 =>
        split at h
        · simp at h
        · next tl tlraw s2 heq2 =>
          split at h
          · simp at h
          · next num numraw s3 heq3 =>
            simp only [ne_eq, ite_not] at h
            split at h
            · cases hr : zset_ziplist_items st.key (num / 2) s3 with
              | mk evs1 res1 =>
                rw [hr] at h
                cases res1 with
                | error e => simp at h
                | ok s4 =>
                  simp only [] at h
                  split at h
                  · simp at h
                  · simp at h
            · simp at h
    · simp at h

/-- Claim C8 counterexample: the claim states that a start event announcing
count n is followed by exactly n element events before the end event, with
the announced count of a zipmap-encoded hash being its one-byte header
count.  A zipmap whose header byte says 3 but whose body stores 2 pairs
before the terminator announces start_hash with 3 yet emits only 2 hset
events before end_hash. -/
theorem C8_counterexample_zipmap_header_count :
    (parse default_filters flags_default input_zipmap).2 = .ok () ∧
    startHashLens (parse default_filters flags_default input_zipmap).1 = [3] ∧
    countHset (parse default_filters flags_default input_zipmap).1 = 2 ∧
    (3 : Nat) ≠ 2 := by
  refine ⟨by decide, by decide, by decide, by decide⟩

/-- Claim C8 as amended: for every aggregate encoding except zipmap, a
successful read_object emits a start event announcing n, then exactly n
element events for the same key, then the end event (for linked lists,
hashtable sets, skiplist sorted sets, hashtable hashes, ziplist lists,
intsets and hash-ziplists); for zipmap-encoded hashes the events between
start_hash and end_hash are all hset events for the key, but their number
follows the pairs stored before the terminator rather than the announced
header count; for zset-ziplists read_object never returns successfully (the
sentinel comparison bug always raises), so the law is vacuous there. -/
theorem C8_event_count_laws_amended :
    (∀ (flags : IgnoreFlags) (st : PState) (f : List Nat) (evs : List Event) (rest : List Nat),
      read_object flags st f REDIS_RDB_TYPE_LIST = (evs, .ok rest) →
      ∃ n i mids, evs = (Event.startList st.key n st.expiry i :: mids) ++ [Event.endList st.key] ∧
        mids.length = n ∧ ∀ e ∈ mids, ∃ v j, e = Event.rpush st.key v (some j)) ∧
    (∀ (flags : IgnoreFlags) (st : PState) (f : List Nat) (evs : List Event) (rest : List Nat),
      read_object flags st f REDIS_RDB_TYPE_SET = (evs, .ok rest) →
      ∃ n i mids, evs = (Event.startSet st.key n st.expiry i :: mids) ++ [Event.endSet st.key] ∧
        mids.length = n ∧ ∀ e ∈ mids, ∃ v j, e = Event.sadd st.key v (some j)) ∧
    (∀ (flags : IgnoreFlags) (st : PState) (f : List Nat) (evs : List Event) (rest : List Nat),
      read_object flags st f REDIS_RDB_TYPE_ZSET = (evs, .ok rest) →
      ∃ n i mids,
        evs = (Event.startSortedSet st.key n st.expiry i :: mids) ++ [Event.endSortedSet st.key] ∧
        mids.length = n ∧ ∀ e ∈ mids, ∃ sc v j, e = Event.zadd st.key sc v (some j)) ∧
    (∀ (flags : IgnoreFlags) (st : PState) (f : List Nat) (evs : List Event) (rest : List Nat),
      read_object flags st f REDIS_RDB_TYPE_HASH = (evs, .ok rest) →
      ∃ n i mids, evs = (Event.startHash st.key n st.expiry i :: mids) ++ [Event.endHash st.key] ∧
        mids.length = n ∧ ∀ e ∈ mids, ∃ fld v j, e = Event.hset st.key fld v (some j)) ∧
    (∀ (flags : IgnoreFlags) (st : PState) (f : List Nat) (evs : List Event) (rest : List Nat),
      read_object flags st f REDIS_RDB_TYPE_LIST_ZIPLIST = (evs, .ok rest) →
      ∃ n i mids, evs = (Event.startList st.key n st.expiry i :: mids) ++ [Event.endList st.key] ∧
        mids.length = n ∧ ∀ e ∈ mids, ∃ v, e = Event.rpush st.key v Option.none) ∧
    (∀ (flags : IgnoreFlags) (st : PState) (f : List Nat) (evs : List Event) (rest : List Nat),
      read_object flags st f REDIS_RDB_TYPE_SET_INTSET = (evs, .ok rest) →
      ∃ n i mids, evs = (Event.startSet st.key n st.expiry i :: mids) ++ [Event.endSet st.key] ∧
        mids.length = n ∧ ∀ e ∈ mids, ∃ v, e = Event.sadd st.key (.int v) Option.none) ∧
    (∀ (flags : IgnoreFlags) (st : PState) (f : List Nat) (evs : List Event) (rest : List Nat),
      read_object flags st f REDIS_RDB_TYPE_HASH_ZIPLIST = (evs, .ok rest) →
      ∃ n i mids, evs = (Event.startHash st.key n st.expiry i :: mids) ++ [Event.endHash st.key] ∧
        mids.length = n ∧ ∀ e ∈ mids, ∃ fld v, e = Event.hset st.key fld v Option.none) ∧
    (∀ (flags : IgnoreFlags) (st : PState) (f : List Nat) (evs : List Event) (rest : List Nat),
      read_object flags st f REDIS_RDB_TYPE_HASH_ZIPMAP = (evs, .ok rest) →
      ∃ n i mids, evs = (Event.startHash st.key n st.expiry i :: mids) ++ [Event.endHash st.key] ∧
        ∀ e ∈ mids, ∃ zk v, e = Event.hset st.key zk v Option.none) ∧
    (∀ (flags : IgnoreFlags) (st : PState) (f : List Nat) (evs : List Event) (rest : List Nat),
      read_object flags st f REDIS_RDB_TYPE_ZSET_ZIPLIST ≠ (evs, .ok rest)) :=
  ⟨read_object_list_count, read_object_set_count, read_object_zset_count,
   read_object_hash_count, read_object_ziplist_count, read_object_intset_count,
   read_object_hash_ziplist_count, read_object_zipmap_shape,
   read_object_zset_ziplist_no_ok⟩

/-- Witness for C8 at a one-pair hashtable-encoded hash. -/
theorem C8_event_count_laws_amended_witness :
    ∃ n i mids,
      ([Event.startHash (RVal.bytes [107]) 1 Option.none
          { encoding := some encHashtable, origDataType := some [4]
          , origKey := some [1, 107], origLength := some [1] },
        Event.hset (RVal.bytes [107]) (RVal.bytes [97]) (RVal.bytes [98])
          (some { origField := some [1, 97], origValue := some [1, 98] }),
        Event.endHash (RVal.bytes [107])] : List Event) =
        (Event.startHash (RVal.bytes [107]) n Option.none i :: mids) ++
          [Event.endHash (RVal.bytes [107])] ∧
      mids.length = n ∧
      ∀ e ∈ mids, ∃ fld v j, e = Event.hset (RVal.bytes [107]) fld v (some j) := by
  obtain ⟨n, i, mids, h1, h2, h3⟩ :=
    C8_event_count_laws_amended.2.2.2.1 flags_default
      ⟨.bytes [107], some [1, 107], Option.none, Option.none, [4]⟩
      [1, 1, 97, 1, 98]
      [Event.startHash (RVal.bytes [107]) 1 Option.none
          { encoding := some encHashtable, origDataType := some [4]
          , origKey := some [1, 107], origLength := some [1] },
        Event.hset (RVal.bytes [107]) (RVal.bytes [97]) (RVal.bytes [98])
          (some { origField := some [1, 97], origValue := some [1, 98] }),
        Event.endHash (RVal.bytes [107])]
      [] (by decide)
  exact ⟨n, i, mids, h1, h2, h3⟩

theorem parse_loop_state_canonical (flt : Filters) (flags : IgnoreFlags) :
    ∀ (fuel db : Nat) (isFirst : Bool) (f : List Nat) (st : PState),
      parse_loop flt flags fuel st db isFirst f =
      parse_loop flt flags fuel initial_state db isFirst f := by
  intro fuel
  induction fuel with
  | zero => intro db isFirst f st; rfl
  | succ fuel ih =>
    intro db isFirst f st
    simp only [parse_loop]
    cases hr : read_unsigned_char f with
    | error e => rfl
    | ok t =>
      obtain ⟨dt0, odt0, f0⟩ := t
      simp only [hr]
      cases he : expiry_phase dt0 odt0 f0 with
      | error e => rfl
      | ok t2 =>
        obtain ⟨dataType, odt, exp, oexp, f1⟩ := t2
        simp only [he]
        by_cases h254 : dataType = REDIS_RDB_OPCODE_SELECTDB
        · rw [if_pos h254, if_pos h254]
          cases hl : read_length f1 with
          | error e => rfl
          | ok t3 =>
            obtain ⟨newDb, odb, f2⟩ := t3
            simp only [hl]
            conv_rhs => rw [ih newDb false f2]
            rw [ih newDb false f2]
        · rw [if_neg h254, if_neg h254]
          by_cases h255 : dataType = REDIS_RDB_OPCODE_EOF
          · rw [if_pos h255, if_pos h255]
          · rw [if_neg h255, if_neg h255]
            cases hm : matches_filter flt db RVal.none Option.none with
            | error e => rfl
            | ok b =>
              cases b with
              | true => rfl
              | false =>
                cases hk : skip_key_and_object f1 dataType with
                | error e => rfl
                | ok f3 =>
                  show parse_loop flt flags fuel
                      { st with expiry := exp, origExpiry := oexp, origDataType := odt }
                      db isFirst f3 =
                    parse_loop flt flags fuel
                      { initial_state with
                        expiry := exp, origExpiry := oexp, origDataType := odt }
                      db isFirst f3
                  conv_rhs => rw [ih db isFirst f3]
                  rw [ih db isFirst f3]

/-- Claim C9: the per-key parser state carried between top-level iterations
(current key and expiry with their raw spans and the raw type byte) never
influences the parse: the loop result is identical for any two incoming
states, because every iteration clears the expiry slot and overwrites the
key before use, so an expiry or key consumed for one object is never
attached to or reported for a later object.  In particular, a seconds-expiry
opcode followed by a SELECT-DB opcode rather than an object is not carried
across: the next object is delivered with no expiry. -/
theorem C9_expiry_and_key_state_never_leak :
    (∀ (flt : Filters) (flags : IgnoreFlags) (fuel db : Nat) (isFirst : Bool)
        (f : List Nat) (st1 st2 : PState),
      parse_loop flt flags fuel st1 db isFirst f =
        parse_loop flt flags fuel st2 db isFirst f) ∧
    setExpiries (parse default_filters flags_default input_expiry_selectdb).1 =
      [Option.none] := by
  refine ⟨?_, by decide⟩
  intro flt flags fuel db isFirst f st1 st2
  exact (parse_loop_state_canonical flt flags fuel db isFirst f st1).trans
    (parse_loop_state_canonical flt flags fuel db isFirst f st2).symm

/-- Claim C10: constructing the parser with the default ignore argument
(None) or an empty ignore list makes init_ignore return early without
defining the two ignore attributes; any later read of an LZF-encoded
non-key string, and any hash-ziplist object, then fails with an
attribute-lookup error (AttributeError) instead of completing or raising
one of the documented parse-error kinds. -/
theorem C10_default_ignore_causes_attribute_errors :
    (init_ignore Option.none = ⟨Option.none, Option.none⟩ ∧
     init_ignore (some []) = ⟨Option.none, Option.none⟩) ∧
    (∀ (rest : List Nat) (clen : Nat) (oc r1 : List Nat) (l : Nat) (ol r2 : List Nat),
      read_length rest = .ok (clen, oc, r1) →
      read_length r1 = .ok (l, ol, r2) →
      read_string ⟨Option.none, Option.none⟩ (195 :: rest) false =
        .error .attributeError) ∧
    (∀ (rv : Option Bool) (st : PState) (f s oraw f1 : List Nat)
        (zb : Nat) (zbr : List Nat) (s1 : List Nat) (tl : Nat) (tlr s2 : List Nat)
        (n : Nat) (nr s3 : List Nat),
      read_string ⟨rv, Option.none⟩ f true = .ok (.bytes s, oraw, f1) →
      read_unsigned_int s = .ok (zb, zbr, s1) →
      read_unsigned_int s1 = .ok (tl, tlr, s2) →
      read_unsigned_short s2 = .ok (n, nr, s3) →
      n % 2 = 0 →
      (read_hash_from_ziplist ⟨rv, Option.none⟩ st f).2 = .error .attributeError) := by
  refine ⟨⟨rfl, rfl⟩, ?_, ?_⟩
  · intro rest clen oc r1 l ol r2 h1 h2
    have c1 : (195 &&& 192) >>> 6 = 3 := by decide
    have c2 : 195 &&& 63 = 3 := by decide
    simp [read_string, read_length_with_encoding, read_unsigned_char,
      REDIS_RDB_ENCVAL, REDIS_RDB_6BITLEN, REDIS_RDB_14BITLEN,
      REDIS_RDB_ENC_INT8, REDIS_RDB_ENC_INT16, REDIS_RDB_ENC_INT32,
      REDIS_RDB_ENC_LZF, c1, c2, h1, h2, getAttr]
  · intro rv st f s oraw f1 zb zbr s1 tl tlr s2 n nr s3 h1 h2 h3 h4 h5
    simp only [read_hash_from_ziplist, h1, h2, h3, h4]
    simp only [h5, ne_eq]
    norm_num
    cases hn2 : n / 2 with
    | zero => simp [hash_ziplist_items, getAttr]
    | succ m => simp [hash_ziplist_items, hz_side, getAttr]

/-- Witness for C10: a minimal LZF-encoded non-key string and a minimal
hash-ziplist, both read with the undefined ignore attributes. -/
theorem C10_default_ignore_causes_attribute_errors_witness :
    read_string ⟨Option.none, Option.none⟩ [195, 0, 0] false =
      .error .attributeError ∧
    (read_hash_from_ziplist ⟨Option.none, Option.none⟩ initial_state
        [10, 0, 0, 0, 0, 0, 0, 0, 0, 0, 0]).2 = .error .attributeError := by
  obtain ⟨_, h2, h3⟩ := C10_default_ignore_causes_attribute_errors
  refine ⟨h2 [0, 0] 0 [0] [0] 0 [0] [] (by decide) (by decide), ?_⟩
  exact h3 Option.none initial_state [10, 0, 0, 0, 0, 0, 0, 0, 0, 0, 0]
    [0, 0, 0, 0, 0, 0, 0, 0, 0, 0] [10, 0, 0, 0, 0, 0, 0, 0, 0, 0, 0] []
    0 [0, 0, 0, 0] [0, 0, 0, 0, 0, 0] 0 [0, 0, 0, 0] [0, 0]
    0 [0, 0] [] (by decide) (by decide) (by decide) (by decide) (by decide)
